import Mathlib

/-!
# go-blackbox: the RabbitMQ retry layer (`server/rabbitmqretry/rabbitmq/index.go`)

A shallow embedding of the producer, consumer-loop, retry and reconnect code.

The AMQP client library is external to the repository.  Every call the code
makes on it is recorded as an `Event` in a chronological trace, and the answer
of the outside world (broker, dialer, application handler) to a call is given
by a `World`: a function of the history so far and of the call, returning the
error of the call (`none` when it succeeds).  Go code therefore becomes a
function from a world and a history to an `Outcome` and the extended history.
-/

namespace Rabbitmq

/-! ## Values carried by AMQP tables and messages -/

/-- Bodies are byte strings (`[]byte`). -/
abbrev Bytes := List UInt8

/-- The dynamically typed values (`interface{}`) the code stores in an
`amqp.Table`, tagged with their Go type. -/
inductive FieldVal where
  | str (s : String)
  | int (v : Int)
  | int32 (v : Int)
  | int64 (v : Int)
  deriving DecidableEq, Repr

/-- An `amqp.Table` (`map[string]interface{}`), kept as an association list in
order of first insertion. -/
abbrev Table := List (String × FieldVal)

/-- Map lookup `t[k]`. -/
def Table.get (t : Table) (k : String) : Option FieldVal :=
  match t with
  | [] => none
  | (k', v) :: rest => if k' = k then some v else Table.get rest k

/-- Map assignment `t[k] = v`. -/
def Table.set (t : Table) (k : String) (v : FieldVal) : Table :=
  match t with
  | [] => [(k, v)]
  | (k', v') :: rest => if k' = k then (k, v) :: rest else (k', v') :: Table.set rest k v

/-- Two's-complement wrap of an integer into `int32`. -/
def wrapInt32 (i : Int) : Int := (i + 2147483648) % 4294967296 - 2147483648

/-- Two's-complement wrap of an integer into `int64`. -/
def wrapInt64 (i : Int) : Int :=
  (i + 9223372036854775808) % 18446744073709551616 - 9223372036854775808

/-- The function `strconv.FormatInt(i, 10)`: the decimal numeral, with a leading minus sign
for negative values. -/
def formatInt (i : Int) : String := toString i

/-- An `amqp.Publishing` with the fields the code sets (the others keep their
zero value). -/
structure Publishing where
  ContentType : String
  Body : Bytes
  DeliveryMode : Nat
  Headers : Table
  deriving DecidableEq, Repr

/-- An `amqp.Delivery` as read by the consumer loop. -/
structure Delivery where
  Headers : Table
  Body : Bytes
  DeliveryTag : Nat
  deriving DecidableEq, Repr

/-! ## Calls on the outside world -/

/-- One call made by the code on the AMQP client library or on the application
handler (`Receiver`), with its arguments in source order. -/
inductive Event where
  | dial (dns : String)
  | connClose
  | openChannel
  | channelClose
  | exchangeDeclare (name kind : String) (durable autoDelete internal noWait : Bool)
      (args : Table)
  | queueDeclare (name : String) (durable autoDelete exclusive noWait : Bool) (args : Table)
  | queueBind (name key exchange : String) (noWait : Bool) (args : Table)
  | publish (exchange key : String) (mandatory immediate : Bool) (msg : Publishing)
  | qos (prefetchCount prefetchSize : Int) (global : Bool)
  | consume (queue consumer : String) (autoAck exclusive noLocal noWait : Bool) (args : Table)
  | ack (tag : Nat) (multiple : Bool)
  | consumer (body : Bytes)
  | failAction (err : String) (body : Bytes)
  deriving DecidableEq, Repr

/-- The outside world: given the calls made so far and the next call, the
error that call returns (`none` for success). -/
abbrev World := List Event → Event → Option String

/-- How a Go function ends: it returns, it panics (nil-pointer dereference in
the client library), or it blocks forever. -/
inductive Outcome (α : Type) where
  | ret (a : α)
  | panic (msg : String)
  | hang
  deriving DecidableEq, Repr

/-- Go code: from a world and the history to an outcome and the new history. -/
def Go (α : Type) : Type := World → List Event → Outcome α × List Event

/-- Return without any call. -/
def Go.pure {α : Type} (a : α) : Go α := fun _ tr => (Outcome.ret a, tr)

/-- Sequencing: a panic or a block ends the run. -/
def Go.bind {α β : Type} (m : Go α) (f : α → Go β) : Go β := fun w tr =>
  match m w tr with
  | (Outcome.ret a, tr1) => f a w tr1
  | (Outcome.panic s, tr1) => (Outcome.panic s, tr1)
  | (Outcome.hang, tr1) => (Outcome.hang, tr1)

instance : Monad Go where
  pure := Go.pure
  bind := Go.bind

/-- Make a call: it is appended to the history and the world answers it. -/
def call (e : Event) : Go (Option String) := fun w tr => (Outcome.ret (w tr e), tr ++ [e])

/-- A nil-pointer dereference. -/
def nilPanic {α : Type} : Go α := fun _ tr =>
  (Outcome.panic "invalid memory address or nil pointer dereference", tr)

/-- Block forever (receive from a nil channel). -/
def blockForever {α : Type} : Go α := fun _ tr => (Outcome.hang, tr)

/-- The Go statement `defer d` placed before `body`: `d` runs when `body` returns or
panics; a panic of either one is the outcome.  A blocked body never reaches
`d`. -/
def withDefer {α : Type} (body : Go α) (d : Go Unit) : Go α := fun w tr =>
  match body w tr with
  | (Outcome.ret a, tr1) =>
    match d w tr1 with
    | (Outcome.ret _, tr2) => (Outcome.ret a, tr2)
    | (Outcome.panic s, tr2) => (Outcome.panic s, tr2)
    | (Outcome.hang, tr2) => (Outcome.hang, tr2)
  | (Outcome.panic s, tr1) =>
    match d w tr1 with
    | (Outcome.ret _, tr2) => (Outcome.panic s, tr2)
    | (Outcome.panic s2, tr2) => (Outcome.panic s2, tr2)
    | (Outcome.hang, tr2) => (Outcome.hang, tr2)
  | (Outcome.hang, tr1) => (Outcome.hang, tr1)

/-! ## The data model of `index.go` -/

/-- The struct `RabbitMQ`.  The two pointers are kept as flags: `true` when the pointer
is non-nil. -/
structure RabbitMQ where
  connection : Bool
  Channel : Bool
  dns : String
  QueueName : String
  RoutingKey : String
  ExchangeName : String
  ExchangeType : String
  deriving DecidableEq, Repr

/-- The struct `QueueExchange`. -/
structure QueueExchange where
  QuName : String
  RtKey : String
  ExName : String
  ExType : String
  Dns : String
  deriving DecidableEq, Repr

/-- The method `MqConnect`: `amqp.Dial` returns a nil connection together with an error. -/
def MqConnect (r : RabbitMQ) : Go (RabbitMQ × Option String) := do
  let err ← call (Event.dial r.dns)
  pure ({ r with connection := err.isNone }, err)

/-- The method `CloseMqConnect`: closing a nil connection dereferences it. -/
def CloseMqConnect (r : RabbitMQ) : Go (Option String) :=
  if r.connection then call Event.connClose else nilPanic

/-- The method `MqOpenChannel`: `Connection.Channel` on a nil connection dereferences it; on
failure it returns a nil channel together with the error. -/
def MqOpenChannel (r : RabbitMQ) : Go (RabbitMQ × Option String) :=
  if r.connection then do
    let err ← call Event.openChannel
    pure ({ r with Channel := err.isNone }, err)
  else nilPanic

/-- A method call on `mq.Channel`: every method of a nil `*amqp.Channel`
dereferences it. -/
def onChannel (mq : RabbitMQ) (e : Event) : Go (Option String) :=
  if mq.Channel then call e else nilPanic

/-- The deferred `mq.Channel.Close()`. -/
def deferredChannelClose (mq : RabbitMQ) : Go Unit := do
  let _ ← onChannel mq Event.channelClose
  pure ()

/-- The function `NewMq`. -/
def NewMq (q : QueueExchange) : RabbitMQ :=
  { connection := false, Channel := false, dns := q.Dns, QueueName := q.QuName,
    RoutingKey := q.RtKey, ExchangeName := q.ExName, ExchangeType := q.ExType }

/-- The block shared by all four channel users: declare the exchange when its
name is non-empty, defaulting the type to `direct`.  Returns the updated
object and the error of the declaration (`none` when none was issued). -/
def declareExchange (mq : RabbitMQ) : Go (RabbitMQ × Option String) :=
  if mq.ExchangeName ≠ "" then do
    let mq1 := { mq with
      ExchangeType := if mq.ExchangeType = "" then "direct" else mq.ExchangeType }
    let err ← onChannel mq1
      (Event.exchangeDeclare mq1.ExchangeName mq1.ExchangeType true false false false [])
    pure (mq1, err)
  else pure (mq, none)

/-! ## Retry publishing -/

/-- The method `SendRetryMsg(body, retry_nums, oldRoutingKey, oldExchangeName)`.  All errors
are only logged. -/
def SendRetryMsg (mq : RabbitMQ) (body : Bytes) (retry_nums : Int)
    (oldRoutingKey oldExchangeName : String) : Go RabbitMQ := do
  let (mq, _) ← MqOpenChannel mq
  withDefer (do
    let (mq, _) ← declareExchange mq
    let table : Table := []
    let table := table.set "x-dead-letter-routing-key" (FieldVal.str oldRoutingKey)
    let (mq, table) :=
      if oldExchangeName ≠ "" then
        (mq, table.set "x-dead-letter-exchange" (FieldVal.str oldExchangeName))
      else
        ({ mq with ExchangeName := "" }, table.set "x-dead-letter-exchange" (FieldVal.str ""))
    let table := table.set "x-message-ttl" (FieldVal.int64 20000)
    let _ ← onChannel mq (Event.queueDeclare mq.QueueName true false false false table)
    if mq.RoutingKey ≠ "" ∧ mq.ExchangeName ≠ "" then
      let _ ← onChannel mq
        (Event.queueBind mq.QueueName mq.RoutingKey mq.ExchangeName false [])
    let header : Table := []
    let header := header.set "retry_nums" (FieldVal.int32 (wrapInt32 (retry_nums + 1)))
    let ttl_exchange := if mq.ExchangeName ≠ "" then mq.ExchangeName else ""
    let ttl_routkey :=
      if mq.RoutingKey ≠ "" ∧ mq.ExchangeName ≠ "" then mq.RoutingKey else mq.QueueName
    let _ ← onChannel mq (Event.publish ttl_exchange ttl_routkey false false
      { ContentType := "application/json", Body := body, DeliveryMode := 0,
        Headers := header })
    pure mq) (deferredChannelClose mq)

/-- The retry spec computed at the top of `retryMsg`: the original routing key and exchange, and
the substituted descriptor. -/
def retrySpec (queueExchange : QueueExchange) : String × String × QueueExchange :=
  let oldQName := queueExchange.QuName
  let oldExchangeName := queueExchange.ExName
  let oldRoutingKey := queueExchange.RtKey
  let oldRoutingKey :=
    if oldRoutingKey = "" ∨ oldExchangeName = "" then oldQName else oldRoutingKey
  let queueExchange :=
    if queueExchange.QuName ≠ "" then
      { queueExchange with QuName := queueExchange.QuName ++ "_retry_3" }
    else queueExchange
  let queueExchange :=
    if queueExchange.RtKey ≠ "" then
      { queueExchange with RtKey := queueExchange.RtKey ++ "_retry_3" }
    else { queueExchange with RtKey := queueExchange.QuName ++ "_retry_3" }
  (oldRoutingKey, oldExchangeName, queueExchange)

/-- The function `retryMsg`: the connection error is discarded, the close is deferred. -/
def retryMsg (msg : Bytes) (retry_nums : Int) (queueExchange : QueueExchange) : Go Unit :=
  let (oldRoutingKey, oldExchangeName, queueExchange) := retrySpec queueExchange
  let mq := NewMq queueExchange
  do
    let (mq, _) ← MqConnect mq
    withDefer (do
      let _ ← SendRetryMsg mq msg retry_nums oldRoutingKey oldExchangeName
      pure ()) (do
      let _ ← CloseMqConnect mq
      pure ())

/-! ## The consumer loop -/

/-- The read `msg.Headers["retry_nums"].(int32)` with the fallback to `int32(0)`. -/
def retryNumsOf (msg : Delivery) : Int :=
  match Table.get msg.Headers "retry_nums" with
  | some (FieldVal.int32 v) => v
  | _ => 0

/-- The body of the `for msg := range msgList` loop of `listenReceiver`. -/
def onDelivery (mq : RabbitMQ) (msg : Delivery) : Go Unit := do
  let retry_nums := retryNumsOf msg
  let err ← call (Event.consumer msg.Body)
  match err with
  | some e =>
    if retry_nums < 3 then
      retryMsg msg.Body retry_nums
        { QuName := mq.QueueName, RtKey := mq.RoutingKey, ExName := mq.ExchangeName,
          ExType := mq.ExchangeType, Dns := mq.dns }
    else do
      let _ ← call (Event.failAction e msg.Body)
      pure ()
    let _ ← call (Event.ack msg.DeliveryTag true)
    pure ()
  | none =>
    let _ ← call (Event.ack msg.DeliveryTag true)
    pure ()

/-- The loop over the delivery stream, in order, until it is closed. -/
def consumeAll (mq : RabbitMQ) : List Delivery → Go Unit
  | [] => pure ()
  | msg :: rest => do
    onDelivery mq msg
    consumeAll mq rest

/-- The method `listenReceiver`, on the deliveries the stream yields before it is closed.  When
`Consume` fails the stream is a nil channel and the loop blocks forever. -/
def listenReceiver (mq : RabbitMQ) (msgList : List Delivery) : Go Unit := do
  let (mq, _) ← MqOpenChannel mq
  withDefer (do
    let (mq, _) ← declareExchange mq
    let _ ← onChannel mq (Event.queueDeclare mq.QueueName true false false false [])
    if mq.RoutingKey ≠ "" ∧ mq.ExchangeName ≠ "" then
      let _ ← onChannel mq
        (Event.queueBind mq.QueueName mq.RoutingKey mq.ExchangeName false [])
    let _ ← onChannel mq (Event.qos 1 0 false)
    let err ← onChannel mq (Event.consume mq.QueueName "" false false false false [])
    match err with
    | some _ => blockForever
    | none => consumeAll mq msgList) (deferredChannelClose mq)

/-! ## Producers -/

/-- The method `SendMsg`, with `json.Marshal` as a parameter.  Declaration errors are only
logged; the result is the marshalling error or the error of the publish. -/
def SendMsg {β : Type} (marshal : β → Except String Bytes) (mq : RabbitMQ) (body : β) :
    Go (RabbitMQ × Option String) := do
  let (mq, _) ← MqOpenChannel mq
  withDefer (do
    let (mq, _) ← declareExchange mq
    let _ ← onChannel mq (Event.queueDeclare mq.QueueName true false false false [])
    if mq.RoutingKey ≠ "" ∧ mq.ExchangeName ≠ "" then
      let _ ← onChannel mq
        (Event.queueBind mq.QueueName mq.RoutingKey mq.ExchangeName false [])
    match marshal body with
    | Except.error e => pure (mq, some e)
    | Except.ok bs =>
      if mq.ExchangeName ≠ "" ∧ mq.RoutingKey ≠ "" then do
        let err ← onChannel mq (Event.publish mq.ExchangeName mq.RoutingKey false false
          { ContentType := "application/json", Body := bs, DeliveryMode := 2, Headers := [] })
        pure (mq, err)
      else do
        let err ← onChannel mq (Event.publish "" mq.QueueName false false
          { ContentType := "application/json", Body := bs, DeliveryMode := 2, Headers := [] })
        pure (mq, err)) (deferredChannelClose mq)

/-- The function `Send`: a failed connect is returned before anything else is done. -/
def Send {β : Type} (marshal : β → Except String Bytes) (queueExchange : QueueExchange)
    (msg : β) : Go (Option String) := do
  let mq := NewMq queueExchange
  let (mq, err) ← MqConnect mq
  match err with
  | some e => pure (some e)
  | none =>
    withDefer (do
      let (_, err) ← SendMsg marshal mq msg
      pure err) (do
      let _ ← CloseMqConnect mq
      pure ())

/-- The error text of `SendDelayMsg` for a non-positive ttl. -/
def ttlRequired : String := "发送延时消息，ttl参数是必须的"

/-- The method `SendDelayMsg(body, ttl)`: every error ends the call and is returned. -/
def SendDelayMsg (mq : RabbitMQ) (body : Bytes) (ttl : Int) :
    Go (RabbitMQ × Option String) := do
  let (mq, _) ← MqOpenChannel mq
  withDefer (do
    let (mq, err) ← declareExchange mq
    match err with
    | some e => pure (mq, some e)
    | none =>
    if ttl ≤ 0 then pure (mq, some ttlRequired) else do
    let table : Table := []
    let table := table.set "x-dead-letter-routing-key" (FieldVal.str mq.RoutingKey)
    let table := table.set "x-dead-letter-exchange" (FieldVal.str mq.ExchangeName)
    let table := table.set "x-message-ttl" (FieldVal.int64 (wrapInt64 (ttl * 1000)))
    let ttlstring := formatInt ttl
    let queueName := mq.QueueName ++ "_delay_" ++ ttlstring
    let routingKey := mq.QueueName ++ "_delay_" ++ ttlstring
    let err ← onChannel mq (Event.queueDeclare queueName true false false false table)
    match err with
    | some e => pure (mq, some e)
    | none =>
    let err ←
      if routingKey ≠ "" ∧ mq.ExchangeName ≠ "" then
        onChannel mq (Event.queueBind queueName routingKey mq.ExchangeName false [])
      else pure none
    match err with
    | some e => pure (mq, some e)
    | none =>
    let header : Table := []
    let header := header.set "retry_nums" (FieldVal.int 0)
    let ttl_exchange := if mq.ExchangeName ≠ "" then mq.ExchangeName else ""
    let ttl_routkey :=
      if mq.RoutingKey ≠ "" ∧ mq.ExchangeName ≠ "" then routingKey else queueName
    let err ← onChannel mq (Event.publish ttl_exchange ttl_routkey false false
      { ContentType := "application/json", Body := body, DeliveryMode := 0,
        Headers := header })
    pure (mq, err)) (deferredChannelClose mq)

/-! ## Observations on traces -/

/-- The calls a run added to the history `tr0` it started from. -/
def emitted {α : Type} (tr0 : List Event) (r : Outcome α × List Event) : List Event :=
  r.2.drop tr0.length

/-- What the retry contract observes of a call. -/
inductive Mark where
  | handler (body : Bytes)
  | republish (body : Bytes) (headers : Table)
  | escalate (err : String) (body : Bytes)
  | ack (tag : Nat) (multiple : Bool)
  deriving DecidableEq, Repr

/-- The observation of a call: handler invocations, publishes, escalations and
acknowledgements are kept, everything else is dropped. -/
def Event.mark : Event → Option Mark
  | Event.consumer b => some (Mark.handler b)
  | Event.publish _ _ _ _ m => some (Mark.republish m.Body m.Headers)
  | Event.failAction e b => some (Mark.escalate e b)
  | Event.ack t m => some (Mark.ack t m)
  | _ => none

/-- The observations of a trace, in order. -/
def marks (tr : List Event) : List Mark := tr.filterMap Event.mark

/-- A queue declaration seen as name, durable flag and arguments. -/
def Event.asQueueDeclare : Event → Option (String × Bool × Table)
  | Event.queueDeclare n d _ _ _ a => some (n, d, a)
  | _ => none

/-- A binding seen as queue, routing key and exchange. -/
def Event.asQueueBind : Event → Option (String × String × String)
  | Event.queueBind n k x _ _ => some (n, k, x)
  | _ => none

/-- A publish seen as exchange, routing key and message. -/
def Event.asPublish : Event → Option (String × String × Publishing)
  | Event.publish x k _ _ m => some (x, k, m)
  | _ => none

/-- A subscription seen as the queue consumed from. -/
def Event.asConsume : Event → Option String
  | Event.consume q _ _ _ _ _ _ => some q
  | _ => none

/-- The queue declarations of a trace, in order. -/
def queueDeclares (tr : List Event) : List (String × Bool × Table) :=
  tr.filterMap Event.asQueueDeclare

/-- The bindings of a trace, in order. -/
def queueBinds (tr : List Event) : List (String × String × String) :=
  tr.filterMap Event.asQueueBind

/-- The publishes of a trace, in order. -/
def publishes (tr : List Event) : List (String × String × Publishing) :=
  tr.filterMap Event.asPublish

/-- The queues consumed from in a trace, in order. -/
def consumes (tr : List Event) : List String :=
  tr.filterMap Event.asConsume

/-- Every call a run of `m` adds to the history satisfies `P`, in every world,
from every history and however the run ends (so the history is only ever
extended), and every value it returns satisfies `Q`. -/
def Emits {α : Type} (P : Event → Prop) (Q : α → Prop) (m : Go α) : Prop :=
  ∀ w tr, ∃ evs, (m w tr).2 = tr ++ evs ∧ (∀ e ∈ evs, P e) ∧
    ∀ a, (m w tr).1 = Outcome.ret a → Q a

/-- Two objects describe the same endpoint: queue, routing key and exchange
names agree. -/
def SameSpec (a b : RabbitMQ) : Prop :=
  a.QueueName = b.QueueName ∧ a.RoutingKey = b.RoutingKey ∧ a.ExchangeName = b.ExchangeName

/-- The dead-letter target of a queue's arguments: exchange and routing key. -/
def deadLetterTarget (args : Table) : Option FieldVal × Option FieldVal :=
  (Table.get args "x-dead-letter-exchange", Table.get args "x-dead-letter-routing-key")

/-- The (exchange, routing key) pair under which `SendMsg` publishes for a spec. -/
def sendAddress (q : QueueExchange) : String × String :=
  if q.ExName ≠ "" ∧ q.RtKey ≠ "" then (q.ExName, q.RtKey) else ("", q.QuName)

/-- Routing of the broker, for the default exchange and for exchanges that route on
equality of binding key and routing key: the default exchange delivers to the queue
named by the routing key, a named exchange to every queue bound to it with that
key. -/
def routesTo (bindings : List (String × String × String)) (exchange key queue : String) :
    Bool :=
  if exchange = "" then decide (key = queue) else decide ((queue, key, exchange) ∈ bindings)

/-! ## The per-message retry chain -/

/-- The delivery the broker makes of a dead-lettered retry copy, body and headers
unchanged. -/
def redeliveryOf (p : Publishing) (tag : Nat) : Delivery :=
  { Headers := p.Headers, Body := p.Body, DeliveryTag := tag }

/-- The life of one message: handle the delivery; when that published a copy,
the copy is delivered next.  Returns the number of deliveries handled, or
`none` when the fuel ran out before the chain ended. -/
def retryChain (mq : RabbitMQ) : Nat → Delivery → Go (Option Nat)
  | 0, _ => Go.pure none
  | fuel + 1, msg => fun w tr =>
    match onDelivery mq msg w tr with
    | (Outcome.ret _, tr1) =>
      match (publishes (tr1.drop tr.length)).getLast? with
      | some (_, _, p) =>
        match retryChain mq fuel (redeliveryOf p (msg.DeliveryTag + 1)) w tr1 with
        | (Outcome.ret r, tr2) => (Outcome.ret (r.map (· + 1)), tr2)
        | other => other
      | none => (Outcome.ret (some 1), tr1)
    | (Outcome.panic s, tr1) => (Outcome.panic s, tr1)
    | (Outcome.hang, tr1) => (Outcome.hang, tr1)

/-! ## The reconnect supervisor of `ReceiveMsg` -/

/-- The decoding of `otherParams` into `(runNums, maxTryConnTimeFromMinute)`; with more than
two parameters both variables keep their zero value. -/
def receiveParams (otherParams : List Int) : Int × Int :=
  match otherParams with
  | [] => (1, 0)
  | [a] => (a, 0)
  | [a, b] => (a, b)
  | _ => (0, 0)

/-- The three signal channels the `select` of `ReceiveMsg` reads. -/
inductive Signal where
  | tryToLinkC
  | tryToLinkMaxNums
  | taskQuit
  deriving DecidableEq, Repr

/-- A `go` statement of `ReceiveMsg`. -/
inductive Spawn where
  | Recv2
  | tryToLink
  deriving DecidableEq, Repr

/-- The variables of `ReceiveMsg` the `select` loop writes, and the goroutines it
has started, in order. -/
structure Supervisor where
  exitTask : Bool
  err : Option String
  started : List Spawn
  deriving DecidableEq, Repr

/-- The start-up loop `for i := 1; i <= runNums; i++ { go Recv2(...) }`. -/
def startTasks (runNums : Int) : List Spawn :=
  (List.range runNums.toNat).map fun _ => Spawn.Recv2

/-- The supervisor when it enters the `select` loop. -/
def supervisorStart (otherParams : List Int) : Supervisor :=
  { exitTask := true, err := none, started := startTasks (receiveParams otherParams).1 }

/-- One round of the `select`: the case chosen by the signal received. -/
def selectCase (s : Signal) (st : Supervisor) : Supervisor :=
  match s with
  | Signal.tryToLinkC => { st with started := st.started ++ [Spawn.Recv2] }
  | Signal.tryToLinkMaxNums =>
    { st with exitTask := false, err := some "rbmq链接超过最大尝试次数!" }
  | Signal.taskQuit => { st with started := st.started ++ [Spawn.tryToLink] }

/-- The number of workers among started goroutines. -/
def workersIn (l : List Spawn) : Nat := l.count Spawn.Recv2

/-- The goroutines one round of the `select` starts. -/
def spawnedBy (s : Signal) (st : Supervisor) : List Spawn :=
  (selectCase s st).started.drop st.started.length

/-- The bound `maxTryConnNums = maxTryConnTimeFromMinute * 10 * maxTryConnTimeFromMinute`, in `int`
arithmetic. -/
def maxTryConnNumsOf (maxTryConnTimeFromMinute : Int) : Int :=
  wrapInt64 (wrapInt64 (maxTryConnTimeFromMinute * 10) * maxTryConnTimeFromMinute)

/-- The error `ReceiveMsg` returns when the attempt bound is exceeded. -/
def maxAttemptsError : String := "rbmq链接超过最大尝试次数!"

/-- The variables `ReceiveMsg` shares with its closure `tryToLink`: the state of the `select`
loop, the object `mq`, the attempt counter `maxTryNums` (set to 0 once, before the
loop) and the bound `maxTryConnNums`. -/
structure Session where
  sup : Supervisor
  mq : RabbitMQ
  maxTryNums : Int
  maxTryConnNums : Int
  deriving DecidableEq, Repr

/-- The closure `tryToLink`, started with the counter at `maxTryNums`: count the attempt,
dial, signal `tryToLinkC` on success, signal `tryToLinkMaxNums` on a failure with the counter
above the bound, else sleep and go round again.  Returns the signal sent, the
object, the counter and the value left in the shared `err`; `none` when the fuel
(one unit per dial) ran out. -/
def tryToLink (maxTryConnNums : Int) :
    Nat → RabbitMQ → Int → Go (Option (Signal × RabbitMQ × Int × Option String))
  | 0, _, _ => Go.pure none
  | fuel + 1, mq, maxTryNums => do
    let maxTryNums := wrapInt64 (maxTryNums + 1)
    let (mq, err) ← MqConnect mq
    match err with
    | none => pure (some (Signal.tryToLinkC, mq, maxTryNums, none))
    | some e =>
      if maxTryNums > maxTryConnNums then
        pure (some (Signal.tryToLinkMaxNums, mq, maxTryNums, some e))
      else tryToLink maxTryConnNums fuel mq maxTryNums

/-- One reconnect cycle run to its end: the `select` takes a quit signal and starts
`tryToLink`, `tryToLink` runs, and the `select` takes the signal it sends.  Returns `none`
when the fuel ran out. -/
def reconnectCycle (fuel : Nat) (s : Session) : Go (Option Session) := do
  let sup := selectCase Signal.taskQuit s.sup
  let r ← tryToLink s.maxTryConnNums fuel s.mq s.maxTryNums
  match r with
  | none => pure none
  | some (sig, mq, n, err) =>
    pure (some { s with sup := selectCase sig { sup with err := err }, mq := mq,
                        maxTryNums := n })

/-- How a run of `ReceiveMsg` stands once a schedule of signals is used up. -/
inductive Receive where
  | returned (err : Option String)
  | waiting (s : Session)
  | starved
  deriving DecidableEq, Repr

/-- The `select` loop of `ReceiveMsg` on a schedule of `quits` worker quit signals, each
reconnect cycle running to its end before the next quit signal is taken: the
loop is left, and `err` returned, as soon as `exitTask` is false; with the schedule
used up the call is still waiting in the `select`.  These are the runs in which
at most one `tryToLink` goroutine is alive at a time, which is every run with one
worker (the default); runs in which several workers quit at once and their
`tryToLink` goroutines overlap are not among them. -/
def superviseLoop (fuel : Nat) : Nat → Session → Go Receive
  | 0, s => Go.pure (Receive.waiting s)
  | quits + 1, s => do
    let r ← reconnectCycle fuel s
    match r with
    | none => pure Receive.starved
    | some s1 =>
      if !s1.sup.exitTask then pure (Receive.returned s1.sup.err)
      else superviseLoop fuel quits s1

/-- The function `ReceiveMsg` on a schedule of `quits` worker quit signals: a failed first
connect is returned at once; otherwise the workers are started and the `select`
loop runs. -/
def ReceiveMsg (fuel : Nat) (queueExchange : QueueExchange) (otherParams : List Int)
    (quits : Nat) : Go Receive := do
  let mq := NewMq queueExchange
  let (mq, err) ← MqConnect mq
  match err with
  | some e => pure (Receive.returned (some e))
  | none =>
    superviseLoop fuel quits
      { sup := supervisorStart otherParams, mq := mq, maxTryNums := 0,
        maxTryConnNums := maxTryConnNumsOf (receiveParams otherParams).2 }

/-- The number of dials `tryToLink` makes when every dial fails, from counter `c` with
bound `B`: the first attempt counts `wrapInt64 (c + 1)`, and attempts go on up to the
first one whose count exceeds `B`. -/
def dialsUntilMax (B c : Int) : Nat := max 1 (B + 2 - wrapInt64 (c + 1)).toNat

/-! ## The derived topologies, as the specification words them -/

/-- The `DelayedTopology` of the specification for an endpoint and a ttl in seconds, as
a queue declaration: queue name `{queue}_delay_{ttl}`, durable, dead-letter exchange
the original exchange, dead-letter routing key the original routing key,
message ttl `ttl × 1000` ms. -/
def DelayedTopology (mq : RabbitMQ) (ttl : Int) : String × Bool × Table :=
  (mq.QueueName ++ "_delay_" ++ formatInt ttl, true,
    [("x-dead-letter-routing-key", FieldVal.str mq.RoutingKey),
     ("x-dead-letter-exchange", FieldVal.str mq.ExchangeName),
     ("x-message-ttl", FieldVal.int64 (ttl * 1000))])

/-- The `DeclareTopology` of the specification, as the calls it makes, in order: the
exchange (only if the exchange name is non-empty; durable, not auto-deleted,
type defaulting to `direct`), the queue (always; durable, not exclusive, not
auto-deleted), the binding (only if both routing key and exchange name are
non-empty). -/
def declareTopology (mq : RabbitMQ) : List Event :=
  (if mq.ExchangeName ≠ "" then
    [Event.exchangeDeclare mq.ExchangeName
      (if mq.ExchangeType = "" then "direct" else mq.ExchangeType) true false false false []]
   else []) ++
  [Event.queueDeclare mq.QueueName true false false false []] ++
  (if mq.RoutingKey ≠ "" ∧ mq.ExchangeName ≠ "" then
    [Event.queueBind mq.QueueName mq.RoutingKey mq.ExchangeName false []]
   else [])

/-! ## Sample worlds and inputs -/

/-- The world in which every call succeeds. -/
def calmWorld : World := fun _ _ => none

/-- The world in which the handler fails on every delivery and every other call
succeeds. -/
def failingHandler : World := fun _ e =>
  match e with
  | Event.consumer _ => some "handler failed"
  | _ => none

/-- The world in which every exchange declaration is refused and every other
call succeeds. -/
def refusingExchange : World := fun _ e =>
  match e with
  | Event.exchangeDeclare _ _ _ _ _ _ _ => some "PRECONDITION_FAILED"
  | _ => none

/-- The world in which no channel can be opened and every other call succeeds. -/
def refusingChannel : World := fun _ e =>
  match e with
  | Event.openChannel => some "channel/connection is not open"
  | _ => none

/-- The world in which no connection can be made. -/
def refusingDial : World := fun _ e =>
  match e with
  | Event.dial _ => some "dial failed"
  | _ => none

/-- The world in which the handler fails on every delivery and no connection
can be made. -/
def brokenRetryDial : World := fun _ e =>
  match e with
  | Event.consumer _ => some "handler failed"
  | Event.dial _ => some "dial failed"
  | _ => none

/-- The world in which the handler fails on every delivery and no channel can
be opened. -/
def brokenRetryChannel : World := fun _ e =>
  match e with
  | Event.consumer _ => some "handler failed"
  | Event.openChannel => some "channel/connection is not open"
  | _ => none

/-- The world in which the very first call, a dial, succeeds and every later
dial fails. -/
def onlyFirstDial : World := fun tr e =>
  match e with
  | Event.dial _ => if tr.length = 0 then none else some "dial failed"
  | _ => none

/-- A world whose dialer answers by the number of calls made before: the first,
the eleventh and the thirteenth call succeed, every other dial fails. -/
def flakyDial : World := fun tr e =>
  match e with
  | Event.dial _ =>
    if tr.length = 0 ∨ tr.length = 10 ∨ tr.length = 12 then none else some "dial failed"
  | _ => none

/-- A session in the `select` loop: one worker, counter at 0, bound 10. -/
def sampleSession : Session :=
  { sup := { exitTask := true, err := none, started := [Spawn.Recv2] },
    mq := { connection := true, Channel := false, dns := "amqp://broker", QueueName := "q",
            RoutingKey := "rk", ExchangeName := "ex", ExchangeType := "" },
    maxTryNums := 0, maxTryConnNums := 10 }

/-- A history of eight dials. -/
def eightDials : List Event := List.replicate 8 (Event.dial "amqp://broker")

/-- A connected object for the spec `(q, rk, ex)`. -/
def sampleMq : RabbitMQ :=
  { connection := true, Channel := false, dns := "amqp://broker", QueueName := "q",
    RoutingKey := "rk", ExchangeName := "ex", ExchangeType := "" }

/-- A connected object for the simple-queue spec `q`. -/
def simpleMq : RabbitMQ :=
  { connection := true, Channel := false, dns := "amqp://broker", QueueName := "q",
    RoutingKey := "", ExchangeName := "", ExchangeType := "" }

/-- The spec `(q, rk, ex)`. -/
def sampleSpec : QueueExchange :=
  { QuName := "q", RtKey := "rk", ExName := "ex", ExType := "", Dns := "amqp://broker" }

/-- The simple-queue spec `q`. -/
def simpleSpec : QueueExchange :=
  { QuName := "q", RtKey := "", ExName := "", ExType := "", Dns := "amqp://broker" }

/-- A spec with an exchange but no routing key: `SendMsg` addresses it as a simple queue. -/
def keylessSpec : QueueExchange :=
  { QuName := "q", RtKey := "", ExName := "ex", ExType := "", Dns := "amqp://broker" }

/-- A spec without queue name. -/
def namelessSpec : QueueExchange :=
  { QuName := "", RtKey := "rk", ExName := "ex", ExType := "", Dns := "amqp://broker" }

/-- The connected object of a spec. -/
def connected (q : QueueExchange) : RabbitMQ := { NewMq q with connection := true }

/-- A first delivery, without headers, as published by `SendMsg`. -/
def sampleDelivery : Delivery := { Headers := [], Body := [104, 105], DeliveryTag := 1 }

/-- A delivery that has been retried three times. -/
def wornDelivery : Delivery :=
  { Headers := [("retry_nums", FieldVal.int32 3)], Body := [104, 105], DeliveryTag := 4 }

/-! ## Basic facts -/

theorem append_ne_empty (s t : String) (h : t ≠ "") : s ++ t ≠ "" := by
  intro hst
  apply h
  have h1 : (s ++ t).data = "".data := by rw [hst]
  rw [String.data_append] at h1
  have h2 : t.data = [] := (List.append_eq_nil.mp h1).2
  exact String.ext h2

theorem marks_append (a b : List Event) : marks (a ++ b) = marks a ++ marks b := by
  simp [marks, List.filterMap_append]

/-! ## Calls added to the history -/

theorem Emits.pure {α : Type} {P : Event → Prop} {Q : α → Prop} {a : α} (h : Q a) :
    Emits P Q (Pure.pure a : Go α) :=
  fun _ tr => ⟨[], by simp [Pure.pure, Go.pure], by simp, by
    intro b hb
    simp only [Pure.pure, Go.pure, Outcome.ret.injEq] at hb
    exact hb ▸ h⟩

theorem Emits.bind {α β : Type} {P : Event → Prop} {Q : α → Prop} {R : β → Prop}
    {m : Go α} {f : α → Go β}
    (hm : Emits P Q m) (hf : ∀ a, Q a → Emits P R (f a)) : Emits P R (m >>= f) := by
  intro w tr
  obtain ⟨evs, h1, h2, hq⟩ := hm w tr
  show ∃ evs, (Go.bind m f w tr).2 = tr ++ evs ∧ (∀ e ∈ evs, P e) ∧
    ∀ a, (Go.bind m f w tr).1 = Outcome.ret a → R a
  unfold Go.bind
  rcases hr : m w tr with ⟨o, tr1⟩
  rw [hr] at h1 hq
  simp only at h1 hq
  subst h1
  cases o with
  | ret a =>
    obtain ⟨evs2, h3, h4, h5⟩ := hf a (hq a rfl) w (tr ++ evs)
    refine ⟨evs ++ evs2, by simp [h3], ?_, h5⟩
    intro e he
    rcases List.mem_append.mp he with h | h
    · exact h2 e h
    · exact h4 e h
  | panic s => exact ⟨evs, rfl, h2, by intro a ha; cases ha⟩
  | hang => exact ⟨evs, rfl, h2, by intro a ha; cases ha⟩

theorem Emits.done {α : Type} {P : Event → Prop} (a : α) :
    Emits P (fun _ => True) (Pure.pure a : Go α) :=
  Emits.pure trivial

theorem Emits.weaken {α : Type} {P : Event → Prop} {Q R : α → Prop} {m : Go α}
    (hm : Emits P Q m) (h : ∀ a, Q a → R a) : Emits P R m := by
  intro w tr
  obtain ⟨evs, h1, h2, hq⟩ := hm w tr
  exact ⟨evs, h1, h2, fun a ha => h a (hq a ha)⟩

theorem Emits.call {P : Event → Prop} {e : Event} (h : P e) :
    Emits P (fun _ => True) (call e) :=
  fun _ tr => ⟨[e], rfl, by simpa using h, fun _ _ => trivial⟩

theorem Emits.nilPanic {α : Type} {P : Event → Prop} {Q : α → Prop} :
    Emits P Q (nilPanic : Go α) :=
  fun _ tr => ⟨[], by simp [Rabbitmq.nilPanic], by simp, by
    intro a ha; simp [Rabbitmq.nilPanic] at ha⟩

theorem Emits.blockForever {α : Type} {P : Event → Prop} {Q : α → Prop} :
    Emits P Q (blockForever : Go α) :=
  fun _ tr => ⟨[], by simp [Rabbitmq.blockForever], by simp, by
    intro a ha; simp [Rabbitmq.blockForever] at ha⟩

theorem Emits.withDefer {α : Type} {P : Event → Prop} {Q : α → Prop} {R : Unit → Prop}
    {body : Go α} {d : Go Unit}
    (hb : Emits P Q body) (hd : Emits P R d) : Emits P Q (withDefer body d) := by
  intro w tr
  obtain ⟨evs, h1, h2, hq⟩ := hb w tr
  unfold Rabbitmq.withDefer
  rcases hr : body w tr with ⟨o, tr1⟩
  rw [hr] at h1 hq
  simp only at h1 hq
  subst h1
  obtain ⟨evs2, h3, h4, _⟩ := hd w (tr ++ evs)
  have hall : ∀ e ∈ evs ++ evs2, P e := by
    intro e he
    rcases List.mem_append.mp he with h | h
    · exact h2 e h
    · exact h4 e h
  rcases hd2 : d w (tr ++ evs) with ⟨o2, tr2⟩
  rw [hd2] at h3
  simp only at h3
  subst h3
  cases o <;> cases o2 <;>
    first
    | exact ⟨evs, rfl, h2, by intro a ha; cases ha⟩
    | exact ⟨evs ++ evs2, by simp [hd2], hall, by
        intro a ha
        simp only [hd2] at ha
        first
        | exact hq a ha
        | cases ha⟩

theorem Emits.onChannel {P : Event → Prop} {mq : RabbitMQ} {e : Event} (h : P e) :
    Emits P (fun _ => True) (onChannel mq e) := by
  unfold Rabbitmq.onChannel
  split
  · exact Emits.call h
  · exact Emits.nilPanic

theorem Emits.deferredChannelClose {P : Event → Prop} {mq : RabbitMQ}
    (h : P Event.channelClose) : Emits P (fun _ => True) (deferredChannelClose mq) :=
  Emits.bind (Emits.onChannel h) (fun _ _ => Emits.pure trivial)

theorem Emits.MqConnect {P : Event → Prop} {mq : RabbitMQ} (h : P (Event.dial mq.dns)) :
    Emits P (fun r => SameSpec r.1 mq) (MqConnect mq) :=
  Emits.bind (Emits.call h) (fun _ _ => Emits.pure ⟨rfl, rfl, rfl⟩)

theorem Emits.CloseMqConnect {P : Event → Prop} {mq : RabbitMQ} (h : P Event.connClose) :
    Emits P (fun _ => True) (CloseMqConnect mq) := by
  unfold Rabbitmq.CloseMqConnect
  split
  · exact Emits.call h
  · exact Emits.nilPanic

theorem Emits.MqOpenChannel {P : Event → Prop} {mq : RabbitMQ} (h : P Event.openChannel) :
    Emits P (fun r => SameSpec r.1 mq) (MqOpenChannel mq) := by
  unfold Rabbitmq.MqOpenChannel
  split
  · exact Emits.bind (Emits.call h) (fun _ _ => Emits.pure ⟨rfl, rfl, rfl⟩)
  · exact Emits.nilPanic

theorem Emits.declareExchange {P : Event → Prop} {mq : RabbitMQ}
    (h : ∀ k, P (Event.exchangeDeclare mq.ExchangeName k true false false false [])) :
    Emits P (fun r => SameSpec r.1 mq) (declareExchange mq) := by
  unfold Rabbitmq.declareExchange
  split
  · exact Emits.bind (Emits.onChannel (h _)) (fun _ _ => Emits.pure ⟨rfl, rfl, rfl⟩)
  · exact Emits.pure ⟨rfl, rfl, rfl⟩

/-- Observations of the calls added by a run that emits only `P`-calls. -/
theorem Emits.filterMap {α β : Type} {P : Event → Prop} {Q : α → Prop} {m : Go α}
    (h : Emits P Q m) (f : Event → Option β) (w : World) (tr0 : List Event) :
    (m w tr0).2 = tr0 ++ emitted tr0 (m w tr0) ∧
    ∀ b ∈ (emitted tr0 (m w tr0)).filterMap f, ∃ e, P e ∧ f e = some b := by
  obtain ⟨evs, h1, h2, _⟩ := h w tr0
  have he : emitted tr0 (m w tr0) = evs := by simp [emitted, h1]
  rw [he]
  refine ⟨h1, ?_⟩
  intro b hb
  obtain ⟨e, hmem, hfe⟩ := List.mem_filterMap.mp hb
  exact ⟨e, h2 e hmem, hfe⟩

/-- The retry branch of the loop body, as one extension of the history: the
handler call, one publish of the copy with the incremented header, one
acknowledgement. -/
theorem onDelivery_retry (w : World) (tr0 : List Event) (mq : RabbitMQ) (msg : Delivery)
    (e : String)
    (hfail : w tr0 (Event.consumer msg.Body) = some e)
    (hlt : retryNumsOf msg < 3) (hge : -2147483648 ≤ retryNumsOf msg)
    (hdial : ∀ tr, w tr (Event.dial mq.dns) = none)
    (hopen : ∀ tr, w tr Event.openChannel = none) :
    ∃ evs, onDelivery mq msg w tr0 = (Outcome.ret (), tr0 ++ evs) ∧
      marks evs =
        [Mark.handler msg.Body,
         Mark.republish msg.Body [("retry_nums", FieldVal.int32 (retryNumsOf msg + 1))],
         Mark.ack msg.DeliveryTag true] ∧
      ∃ x k, publishes evs =
        [(x, k, { ContentType := "application/json", Body := msg.Body, DeliveryMode := 0,
                  Headers := [("retry_nums", FieldVal.int32 (retryNumsOf msg + 1))] })] := by
  have hw : wrapInt32 (retryNumsOf msg + 1) = retryNumsOf msg + 1 := by
    unfold wrapInt32; omega
  have hr : ∀ s : String, s ++ "_retry_3" ≠ "" := fun s => append_ne_empty s _ (by decide)
  refine ⟨emitted tr0 (onDelivery mq msg w tr0), ?_, ?_, ?_⟩ <;>
    by_cases hx : mq.ExchangeName = "" <;> by_cases hk : mq.RoutingKey = "" <;>
    by_cases hq : mq.QueueName = "" <;>
    simp [onDelivery, retryMsg, retrySpec, SendRetryMsg, MqConnect, MqOpenChannel,
      CloseMqConnect, NewMq, declareExchange, onChannel, deferredChannelClose, withDefer,
      call, bind, pure, Go.bind, Go.pure, hfail, hlt, hdial, hopen, hx, hk, hq, hr, hw,
      emitted, marks, publishes, Event.asPublish, Event.mark, Table.set]

/-- The escalation branch of the loop body: the complete extension of the history. -/
theorem onDelivery_escalate (w : World) (tr0 : List Event) (mq : RabbitMQ) (msg : Delivery)
    (e : String)
    (hfail : w tr0 (Event.consumer msg.Body) = some e)
    (hge : 3 ≤ retryNumsOf msg) :
    onDelivery mq msg w tr0 =
      (Outcome.ret (), tr0 ++ [Event.consumer msg.Body, Event.failAction e msg.Body,
        Event.ack msg.DeliveryTag true]) := by
  have hnlt : ¬ retryNumsOf msg < 3 := by omega
  simp [onDelivery, call, bind, pure, Go.bind, Go.pure, hfail, hnlt]

/-- One link of the retry chain: a failed delivery below the limit hands over to
the delivery of its copy. -/
theorem retryChain_retry (w : World) (tr0 : List Event) (mq : RabbitMQ) (msg : Delivery)
    (fuel : Nat) (n : Int)
    (hfail : ∀ tr b, ∃ e, w tr (Event.consumer b) = some e)
    (hn : retryNumsOf msg = n) (hlt : n < 3) (hge : 0 ≤ n)
    (hdial : ∀ tr, w tr (Event.dial mq.dns) = none)
    (hopen : ∀ tr, w tr Event.openChannel = none) :
    ∃ evs, marks evs =
        [Mark.handler msg.Body,
         Mark.republish msg.Body [("retry_nums", FieldVal.int32 (n + 1))],
         Mark.ack msg.DeliveryTag true] ∧
      retryChain mq (fuel + 1) msg w tr0 =
        match retryChain mq fuel
            { Headers := [("retry_nums", FieldVal.int32 (n + 1))], Body := msg.Body,
              DeliveryTag := msg.DeliveryTag + 1 } w (tr0 ++ evs) with
        | (Outcome.ret r, tr2) => (Outcome.ret (r.map (· + 1)), tr2)
        | other => other := by
  obtain ⟨e, he⟩ := hfail tr0 msg.Body
  obtain ⟨evs, h1, h2, x, k, h3⟩ :=
    onDelivery_retry w tr0 mq msg e he (by omega) (by omega) hdial hopen
  rw [hn] at h2 h3
  refine ⟨evs, h2, ?_⟩
  rw [retryChain]
  simp [h1, h3, redeliveryOf]

/-- The last link of the retry chain: a failed delivery at the limit is
escalated and nothing follows. -/
theorem retryChain_escalate (w : World) (tr0 : List Event) (mq : RabbitMQ) (msg : Delivery)
    (fuel : Nat) (e : String)
    (hfail : w tr0 (Event.consumer msg.Body) = some e)
    (hge : 3 ≤ retryNumsOf msg) :
    retryChain mq (fuel + 1) msg w tr0 =
      (Outcome.ret (some 1), tr0 ++ [Event.consumer msg.Body, Event.failAction e msg.Body,
        Event.ack msg.DeliveryTag true]) := by
  rw [retryChain]
  simp [onDelivery_escalate w tr0 mq msg e hfail hge, publishes, Event.asPublish]

/-! ## The retry contract of the consumer loop -/

/-- The retry branch of the consumer loop when the connection and the channel
of the retry publish open: a delivery whose handler fails and whose retry
count `n` (the `int32` header `retry_nums`, 0 when absent or of another type) is
below 3 leads to exactly one publish, carrying the same body and the header
`retry_nums = n + 1`, to no `FailAction`, and to exactly one acknowledgement of
the delivery, issued after the publish.  The broker may answer every
declaration and the publish as it likes. -/
theorem retry_below_three (w : World) (tr0 : List Event) (mq : RabbitMQ) (msg : Delivery)
    (e : String)
    (hfail : w tr0 (Event.consumer msg.Body) = some e)
    (hlt : retryNumsOf msg < 3) (hge : -2147483648 ≤ retryNumsOf msg)
    (hdial : ∀ tr, w tr (Event.dial mq.dns) = none)
    (hopen : ∀ tr, w tr Event.openChannel = none) :
    (onDelivery mq msg w tr0).1 = Outcome.ret () ∧
    marks (emitted tr0 (onDelivery mq msg w tr0)) =
      [Mark.handler msg.Body,
       Mark.republish msg.Body [("retry_nums", FieldVal.int32 (retryNumsOf msg + 1))],
       Mark.ack msg.DeliveryTag true] ∧
    (Table.get msg.Headers "retry_nums" = none → retryNumsOf msg = 0) ∧
    (∀ v, Table.get msg.Headers "retry_nums" = some (FieldVal.int32 v) → retryNumsOf msg = v) ∧
    (∀ f, Table.get msg.Headers "retry_nums" = some f → (∀ v, f ≠ FieldVal.int32 v) →
      retryNumsOf msg = 0) := by
  obtain ⟨evs, h1, h2, _⟩ := onDelivery_retry w tr0 mq msg e hfail hlt hge hdial hopen
  refine ⟨by rw [h1], by simp [h1, emitted, h2], ?_, ?_, ?_⟩
  · intro h; simp [retryNumsOf, h]
  · intro v h; simp [retryNumsOf, h]
  · intro f h hf
    cases f <;> simp_all [retryNumsOf]

/-- The retry branch at a first delivery to the spec `(q, rk, ex)` whose handler fails. -/
theorem retry_below_three_witness :
    (onDelivery sampleMq sampleDelivery failingHandler []).1 = Outcome.ret () ∧
    marks (emitted [] (onDelivery sampleMq sampleDelivery failingHandler [])) =
      [Mark.handler [104, 105],
       Mark.republish [104, 105] [("retry_nums", FieldVal.int32 1)],
       Mark.ack 1 true] :=
  have h := retry_below_three failingHandler [] sampleMq sampleDelivery "handler failed"
    rfl (by decide) (by decide) (fun _ => rfl) (fun _ => rfl)
  ⟨h.1, h.2.1⟩

/-- C2: in the consumer loop, a delivery whose handler fails and whose
`retry_nums` header is at least 3 leads to exactly one `FailAction(err, body)` with
the error of the handler and the body of the delivery, to no publish (no call
of `retryMsg` at all), and to the acknowledgement of the delivery: these three
calls are all the loop body makes. -/
theorem escalate_at_three (w : World) (tr0 : List Event) (mq : RabbitMQ) (msg : Delivery)
    (e : String)
    (hfail : w tr0 (Event.consumer msg.Body) = some e)
    (hge : 3 ≤ retryNumsOf msg) :
    (onDelivery mq msg w tr0).1 = Outcome.ret () ∧
    emitted tr0 (onDelivery mq msg w tr0) =
      [Event.consumer msg.Body, Event.failAction e msg.Body,
       Event.ack msg.DeliveryTag true] ∧
    publishes (emitted tr0 (onDelivery mq msg w tr0)) = [] := by
  rw [onDelivery_escalate w tr0 mq msg e hfail hge]
  simp [emitted, publishes, Event.asPublish]

/-- C2 at a delivery with `retry_nums = 3`. -/
theorem escalate_at_three_witness :
    emitted [] (onDelivery sampleMq wornDelivery failingHandler []) =
      [Event.consumer [104, 105], Event.failAction "handler failed" [104, 105],
       Event.ack 4 true] :=
  (escalate_at_three failingHandler [] sampleMq wornDelivery "handler failed"
    rfl (by decide)).2.1

/-- The retry chain when the connection and the channel of every retry publish
open: a message without `retry_nums` header whose handler fails on every
delivery, each retry copy being delivered again with body and headers
unchanged, is handled in exactly 4 deliveries: the first three each publish
one copy, with `retry_nums` 1, 2 and 3 in that order, the fourth calls `FailAction`
once and publishes nothing, and the chain ends there (any fuel of at least 4
gives this result). -/
theorem max_three_retries (w : World) (tr0 : List Event) (mq : RabbitMQ) (msg : Delivery)
    (fuel : Nat)
    (hnone : Table.get msg.Headers "retry_nums" = none)
    (hfail : ∀ tr b, ∃ e, w tr (Event.consumer b) = some e)
    (hdial : ∀ tr, w tr (Event.dial mq.dns) = none)
    (hopen : ∀ tr, w tr Event.openChannel = none)
    (hfuel : 4 ≤ fuel) :
    (retryChain mq fuel msg w tr0).1 = Outcome.ret (some 4) ∧
    ∃ e, marks (emitted tr0 (retryChain mq fuel msg w tr0)) =
      [Mark.handler msg.Body,
       Mark.republish msg.Body [("retry_nums", FieldVal.int32 1)],
       Mark.ack msg.DeliveryTag true,
       Mark.handler msg.Body,
       Mark.republish msg.Body [("retry_nums", FieldVal.int32 2)],
       Mark.ack (msg.DeliveryTag + 1) true,
       Mark.handler msg.Body,
       Mark.republish msg.Body [("retry_nums", FieldVal.int32 3)],
       Mark.ack (msg.DeliveryTag + 2) true,
       Mark.handler msg.Body,
       Mark.escalate e msg.Body,
       Mark.ack (msg.DeliveryTag + 3) true] := by
  obtain ⟨f, rfl⟩ : ∃ f, fuel = f + 4 := ⟨fuel - 4, by omega⟩
  have h0 : retryNumsOf msg = 0 := by simp [retryNumsOf, hnone]
  obtain ⟨evs1, m1, c1⟩ :=
    retryChain_retry w tr0 mq msg (f + 3) 0 hfail h0 (by decide) (by decide) hdial hopen
  obtain ⟨evs2, m2, c2⟩ :=
    retryChain_retry w (tr0 ++ evs1) mq
      { Headers := [("retry_nums", FieldVal.int32 (0 + 1))], Body := msg.Body,
        DeliveryTag := msg.DeliveryTag + 1 } (f + 2) 1 hfail
      (by simp [retryNumsOf, Table.get]) (by decide) (by decide) hdial hopen
  obtain ⟨evs3, m3, c3⟩ :=
    retryChain_retry w (tr0 ++ evs1 ++ evs2) mq
      { Headers := [("retry_nums", FieldVal.int32 (1 + 1))], Body := msg.Body,
        DeliveryTag := msg.DeliveryTag + 1 + 1 } (f + 1) 2 hfail
      (by simp [retryNumsOf, Table.get]) (by decide) (by decide) hdial hopen
  obtain ⟨e, he⟩ := hfail (tr0 ++ evs1 ++ evs2 ++ evs3) msg.Body
  have c4 := retryChain_escalate w (tr0 ++ evs1 ++ evs2 ++ evs3) mq
      { Headers := [("retry_nums", FieldVal.int32 (2 + 1))], Body := msg.Body,
        DeliveryTag := msg.DeliveryTag + 1 + 1 + 1 } f e he
      (by simp [retryNumsOf, Table.get])
  rw [c1, c2, c3, c4]
  refine ⟨by simp, e, ?_⟩
  simp only [emitted, List.append_assoc, List.drop_left, marks_append, m1, m2, m3]
  simp [marks, Event.mark, Nat.add_assoc]

/-- The retry chain at a first delivery to the spec `(q, rk, ex)`, with fuel 10. -/
theorem max_three_retries_witness :
    (retryChain sampleMq 10 sampleDelivery failingHandler []).1 = Outcome.ret (some 4) :=
  (max_three_retries failingHandler [] sampleMq sampleDelivery 10 rfl
    (fun _ _ => ⟨"handler failed", rfl⟩) (fun _ => rfl) (fun _ => rfl) (by decide)).1

/-! ## The retry path without a connection -/

/-- C1 at a retry connection that cannot be made: the handler fails on a first
delivery (retry count 0), `retryMsg` is called once and discards the error of
`MqConnect`, `SendRetryMsg` dereferences the nil connection, and the loop body ends in
a panic after the handler call and the dial: nothing is published and the
delivery is not acknowledged.  The same happens, after the dial and the
failed channel opening, when the connection is made and the channel cannot
be opened. -/
theorem retry_dial_failure_panics :
    onDelivery sampleMq sampleDelivery brokenRetryDial [] =
      (Outcome.panic "invalid memory address or nil pointer dereference",
        [Event.consumer [104, 105], Event.dial "amqp://broker"]) ∧
    marks (emitted [] (onDelivery sampleMq sampleDelivery brokenRetryDial [])) =
      [Mark.handler [104, 105]] ∧
    onDelivery sampleMq sampleDelivery brokenRetryChannel [] =
      (Outcome.panic "invalid memory address or nil pointer dereference",
        [Event.consumer [104, 105], Event.dial "amqp://broker", Event.openChannel,
         Event.connClose]) ∧
    marks (emitted [] (onDelivery sampleMq sampleDelivery brokenRetryChannel [])) =
      [Mark.handler [104, 105]] := by
  decide

/-- C3 at a retry connection that cannot be made: for a message without
`retry_nums` header whose handler fails on every delivery, the chain ends in a
panic at the first delivery, after one handler call and the failed dial: no
copy is published, `FailAction` is never called and the delivery is not
acknowledged. -/
theorem retry_chain_dial_failure_panics :
    retryChain sampleMq 10 sampleDelivery brokenRetryDial [] =
      (Outcome.panic "invalid memory address or nil pointer dereference",
        [Event.consumer [104, 105], Event.dial "amqp://broker"]) ∧
    marks (emitted [] (retryChain sampleMq 10 sampleDelivery brokenRetryDial [])) =
      [Mark.handler [104, 105]] := by
  decide

/-! ## Delayed publishing -/

theorem delay_name_ne_empty (q s : String) : q ++ "_delay_" ++ s ≠ "" := by
  rw [String.append_assoc]
  refine append_ne_empty _ _ (fun h => ?_)
  have h1 : ("_delay_" ++ s).data = "".data := by rw [h]
  rw [String.data_append] at h1
  exact absurd (List.append_eq_nil.mp h1).1 (by decide)

/-- The calls of `SendDelayMsg`, in every world: opening and closing the channel, declaring
the exchange of the spec and, for a positive ttl only, one fixed queue
declaration, bindings and publishes. -/
theorem SendDelayMsg_emits (P : Event → Prop) (mq : RabbitMQ) (body : Bytes) (ttl : Int)
    (h1 : P Event.openChannel) (h2 : P Event.channelClose)
    (h3 : ∀ k, P (Event.exchangeDeclare mq.ExchangeName k true false false false []))
    (h4 : 0 < ttl → P (Event.queueDeclare (mq.QueueName ++ "_delay_" ++ formatInt ttl)
      true false false false
      [("x-dead-letter-routing-key", FieldVal.str mq.RoutingKey),
       ("x-dead-letter-exchange", FieldVal.str mq.ExchangeName),
       ("x-message-ttl", FieldVal.int64 (wrapInt64 (ttl * 1000)))]))
    (h5 : 0 < ttl → ∀ q k x, P (Event.queueBind q k x false []))
    (h6 : 0 < ttl → ∀ x k m, P (Event.publish x k false false m)) :
    Emits P (fun _ => True) (SendDelayMsg mq body ttl) := by
  unfold SendDelayMsg
  refine Emits.bind (Emits.MqOpenChannel h1) (fun r hr => ?_)
  obtain ⟨mq1, e1⟩ := r
  obtain ⟨hq1, hk1, hx1⟩ := hr
  dsimp only at hq1 hk1 hx1 ⊢
  refine Emits.withDefer ?_ (Emits.deferredChannelClose h2)
  refine Emits.bind (Emits.declareExchange (by rw [hx1]; exact h3)) (fun r hr => ?_)
  obtain ⟨mq2, e2⟩ := r
  obtain ⟨hq2, hk2, hx2⟩ := hr
  dsimp only at hq2 hk2 hx2 ⊢
  cases e2 with
  | some e => exact Emits.pure trivial
  | none =>
    dsimp only
    split
    · exact Emits.pure trivial
    · rename_i hnp
      have hpos : 0 < ttl := by omega
      have tail : ∀ y : Option String, Emits P (fun _ => True)
          (match y with
            | some e => (Pure.pure (mq2, some e) : Go (RabbitMQ × Option String))
            | none => do
              let err ← onChannel mq2
                (Event.publish (if mq2.ExchangeName ≠ "" then mq2.ExchangeName else "")
                  (if mq2.RoutingKey ≠ "" ∧ mq2.ExchangeName ≠ "" then
                    mq2.QueueName ++ "_delay_" ++ formatInt ttl
                  else mq2.QueueName ++ "_delay_" ++ formatInt ttl)
                  false false
                  { ContentType := "application/json", Body := body, DeliveryMode := 0,
                    Headers := Table.set [] "retry_nums" (FieldVal.int 0) })
              Pure.pure (mq2, err)) := by
        intro y
        cases y with
        | some e => exact Emits.pure trivial
        | none =>
          exact Emits.bind (Emits.onChannel (h6 hpos _ _ _)) (fun _ _ => Emits.pure trivial)
      refine Emits.bind (Emits.onChannel ?_) (fun err _ => ?_)
      · rw [hq2, hk2, hx2, hq1, hk1, hx1]
        simpa [Table.set] using h4 hpos
      · cases err with
        | some e => exact Emits.pure trivial
        | none =>
          dsimp only
          split
          · exact Emits.bind (Emits.onChannel (h5 hpos _ _ _)) (fun y _ => tail y)
          · exact Emits.bind (@Emits.pure _ _ (fun _ => True) _ trivial) (fun y _ => tail y)

/-- With an open channel and an accepted exchange declaration, `SendDelayMsg` with a
positive ttl issues its queue declaration, whatever the broker answers to it
and to what follows. -/
theorem sendDelay_declares (w : World) (tr0 : List Event) (mq : RabbitMQ) (body : Bytes)
    (ttl : Int)
    (hconn : mq.connection = true)
    (hopen : w tr0 Event.openChannel = none)
    (hex : ∀ tr k, w tr (Event.exchangeDeclare mq.ExchangeName k true false false false []) = none)
    (hpos : 0 < ttl) :
    (mq.QueueName ++ "_delay_" ++ formatInt ttl, true,
        [("x-dead-letter-routing-key", FieldVal.str mq.RoutingKey),
         ("x-dead-letter-exchange", FieldVal.str mq.ExchangeName),
         ("x-message-ttl", FieldVal.int64 (wrapInt64 (ttl * 1000)))]) ∈
      queueDeclares (emitted tr0 (SendDelayMsg mq body ttl w tr0)) := by
  have hnp : ¬ ttl ≤ 0 := by omega
  have hne := delay_name_ne_empty mq.QueueName (formatInt ttl)
  by_cases hx : mq.ExchangeName = ""
  · cases hq : w (tr0 ++ [Event.openChannel])
      (Event.queueDeclare (mq.QueueName ++ "_delay_" ++ formatInt ttl) true false false false
        [("x-dead-letter-routing-key", FieldVal.str mq.RoutingKey),
         ("x-dead-letter-exchange", FieldVal.str ""),
         ("x-message-ttl", FieldVal.int64 (wrapInt64 (ttl * 1000)))]) <;>
    simp [SendDelayMsg, MqOpenChannel, declareExchange, onChannel, deferredChannelClose,
      withDefer, call, bind, pure, Go.bind, Go.pure, hconn, hopen, hnp, hx, hq,
      emitted, Table.set, queueDeclares, Event.asQueueDeclare]
  · cases hq : w (tr0 ++ [Event.openChannel,
        Event.exchangeDeclare mq.ExchangeName
          (if mq.ExchangeType = "" then "direct" else mq.ExchangeType)
          true false false false []])
      (Event.queueDeclare (mq.QueueName ++ "_delay_" ++ formatInt ttl) true false false false
        [("x-dead-letter-routing-key", FieldVal.str mq.RoutingKey),
         ("x-dead-letter-exchange", FieldVal.str mq.ExchangeName),
         ("x-message-ttl", FieldVal.int64 (wrapInt64 (ttl * 1000)))])
    · cases hb : w (tr0 ++ [Event.openChannel,
          Event.exchangeDeclare mq.ExchangeName
            (if mq.ExchangeType = "" then "direct" else mq.ExchangeType)
            true false false false [],
          Event.queueDeclare (mq.QueueName ++ "_delay_" ++ formatInt ttl) true false false
            false
            [("x-dead-letter-routing-key", FieldVal.str mq.RoutingKey),
             ("x-dead-letter-exchange", FieldVal.str mq.ExchangeName),
             ("x-message-ttl", FieldVal.int64 (wrapInt64 (ttl * 1000)))]])
        (Event.queueBind (mq.QueueName ++ "_delay_" ++ formatInt ttl)
          (mq.QueueName ++ "_delay_" ++ formatInt ttl) mq.ExchangeName false []) <;>
      simp [SendDelayMsg, MqOpenChannel, declareExchange, onChannel, deferredChannelClose,
        withDefer, call, bind, pure, Go.bind, Go.pure, hconn, hopen, hex, hnp, hx, hq, hb,
        hne, emitted, Table.set, queueDeclares, Event.asQueueDeclare]
    · simp [SendDelayMsg, MqOpenChannel, declareExchange, onChannel, deferredChannelClose,
        withDefer, call, bind, pure, Go.bind, Go.pure, hconn, hopen, hex, hnp, hx, hq,
        hne, emitted, Table.set, queueDeclares, Event.asQueueDeclare]

theorem wrapInt64_of_range (i : Int) (h0 : 0 ≤ i) (h1 : i ≤ 9223372036854775807) :
    wrapInt64 i = i := by
  unfold wrapInt64; omega

/-- C4: for every spec and every ttl > 0 with `ttl * 1000` in the `int64` range, the
queue `SendDelayMsg` declares is the durable queue `QueueName ++ "_delay_" ++ decimal(ttl)`
with exactly the arguments `x-dead-letter-routing-key` = the routing key of the
spec, `x-dead-letter-exchange` = its exchange name and `x-message-ttl = ttl * 1000`: no
other queue is ever declared by the call, and this one is declared whenever
the channel opens and the exchange declaration is accepted.  For ttl = 5 it
is `QueueName ++ "_delay_5"` with `x-message-ttl` 5000. -/
theorem delay_queue_topology (w : World) (tr0 : List Event) (mq : RabbitMQ) (body : Bytes)
    (ttl : Int) (hpos : 0 < ttl) (hrange : ttl * 1000 ≤ 9223372036854775807) :
    (∀ d ∈ queueDeclares (emitted tr0 (SendDelayMsg mq body ttl w tr0)),
      d = DelayedTopology mq ttl) ∧
    (mq.connection = true → w tr0 Event.openChannel = none →
      (∀ tr k, w tr (Event.exchangeDeclare mq.ExchangeName k true false false false []) = none) →
      DelayedTopology mq ttl ∈ queueDeclares (emitted tr0 (SendDelayMsg mq body ttl w tr0))) ∧
    (ttl = 5 → DelayedTopology mq ttl =
      (mq.QueueName ++ "_delay_5", true,
        [("x-dead-letter-routing-key", FieldVal.str mq.RoutingKey),
         ("x-dead-letter-exchange", FieldVal.str mq.ExchangeName),
         ("x-message-ttl", FieldVal.int64 5000)])) := by
  have hw : wrapInt64 (ttl * 1000) = ttl * 1000 := wrapInt64_of_range _ (by omega) hrange
  refine ⟨?_, ?_, ?_⟩
  · intro d hd
    have hE := SendDelayMsg_emits
      (fun e => ∀ d, e.asQueueDeclare = some d → d = DelayedTopology mq ttl) mq body ttl
      (by intro d h; simp [Event.asQueueDeclare] at h)
      (by intro d h; simp [Event.asQueueDeclare] at h)
      (by intro k d h; simp [Event.asQueueDeclare] at h)
      (by
        intro _ d h
        simp only [Event.asQueueDeclare, Option.some.injEq] at h
        rw [← h, hw]; rfl)
      (by intro _ q k x d h; simp [Event.asQueueDeclare] at h)
      (by intro _ x k m d h; simp [Event.asQueueDeclare] at h)
    obtain ⟨e, he, hfe⟩ := (hE.filterMap Event.asQueueDeclare w tr0).2 d hd
    exact he d hfe
  · intro hconn hopen hex
    have h := sendDelay_declares w tr0 mq body ttl hconn hopen hex hpos
    rw [hw] at h
    exact h
  · intro h5
    subst h5
    have h : "_delay_" ++ formatInt 5 = "_delay_5" := by decide
    simp [DelayedTopology, String.append_assoc, h]

/-- C4 at ttl = 5 for the spec `(q, rk, ex)` on a broker that accepts every call. -/
theorem delay_queue_topology_witness :
    ("q_delay_5", true,
      [("x-dead-letter-routing-key", FieldVal.str "rk"),
       ("x-dead-letter-exchange", FieldVal.str "ex"),
       ("x-message-ttl", FieldVal.int64 5000)]) ∈
      queueDeclares (emitted [] (SendDelayMsg sampleMq [104, 105] 5 calmWorld [])) :=
  (delay_queue_topology calmWorld [] sampleMq [104, 105] 5 (by decide) (by decide)).2.1
    rfl rfl (fun _ _ => rfl)

/-- C5, as stated, fails: with a non-empty exchange name and a broker that
refuses the exchange declaration, `SendDelayMsg` with ttl = 0 returns the error of
the declaration, not the ttl-required error. -/
theorem delay_zero_ttl_refused_exchange :
    (SendDelayMsg sampleMq [104, 105] 0 refusingExchange []).1 =
      Outcome.ret ({ sampleMq with Channel := true, ExchangeType := "direct" },
        some "PRECONDITION_FAILED") ∧
    "PRECONDITION_FAILED" ≠ ttlRequired := by
  decide

/-- C5, amended: for every spec, body and ttl <= 0, `SendDelayMsg` publishes
nothing and declares and binds no queue, in every world.  On a channel that
opens it returns the error of the exchange declaration when that declaration
(issued first, for a non-empty exchange name) fails, and the ttl-required error
otherwise. -/
theorem delay_nonpositive_ttl (w : World) (tr0 : List Event) (mq : RabbitMQ) (body : Bytes)
    (ttl : Int) (httl : ttl ≤ 0) :
    publishes (emitted tr0 (SendDelayMsg mq body ttl w tr0)) = [] ∧
    queueDeclares (emitted tr0 (SendDelayMsg mq body ttl w tr0)) = [] ∧
    queueBinds (emitted tr0 (SendDelayMsg mq body ttl w tr0)) = [] ∧
    (mq.connection = true → w tr0 Event.openChannel = none →
      ∃ mq1, (SendDelayMsg mq body ttl w tr0).1 = Outcome.ret (mq1,
        some (match (if mq.ExchangeName ≠ "" then
            w (tr0 ++ [Event.openChannel])
              (Event.exchangeDeclare mq.ExchangeName
                (if mq.ExchangeType = "" then "direct" else mq.ExchangeType)
                true false false false [])
          else none) with
          | some e => e
          | none => ttlRequired))) := by
  have hnp : ¬ 0 < ttl := by omega
  have hE := SendDelayMsg_emits
    (fun e => e.asPublish = none ∧ e.asQueueDeclare = none ∧ e.asQueueBind = none)
    mq body ttl ⟨rfl, rfl, rfl⟩ ⟨rfl, rfl, rfl⟩ (fun _ => ⟨rfl, rfl, rfl⟩)
    (fun h => absurd h hnp) (fun h => absurd h hnp) (fun h => absurd h hnp)
  refine ⟨?_, ?_, ?_, ?_⟩
  · refine List.eq_nil_iff_forall_not_mem.mpr (fun b hb => ?_)
    obtain ⟨e, he, hfe⟩ := (hE.filterMap Event.asPublish w tr0).2 b hb
    rw [he.1] at hfe
    cases hfe
  · refine List.eq_nil_iff_forall_not_mem.mpr (fun b hb => ?_)
    obtain ⟨e, he, hfe⟩ := (hE.filterMap Event.asQueueDeclare w tr0).2 b hb
    rw [he.2.1] at hfe
    cases hfe
  · refine List.eq_nil_iff_forall_not_mem.mpr (fun b hb => ?_)
    obtain ⟨e, he, hfe⟩ := (hE.filterMap Event.asQueueBind w tr0).2 b hb
    rw [he.2.2] at hfe
    cases hfe
  · intro hconn hopen
    by_cases hx : mq.ExchangeName = ""
    · simp [SendDelayMsg, MqOpenChannel, declareExchange, onChannel, deferredChannelClose,
        withDefer, call, bind, pure, Go.bind, Go.pure, hconn, hopen, hx, httl]
    · cases hd : w (tr0 ++ [Event.openChannel])
        (Event.exchangeDeclare mq.ExchangeName
          (if mq.ExchangeType = "" then "direct" else mq.ExchangeType)
          true false false false []) <;>
      simp [SendDelayMsg, MqOpenChannel, declareExchange, onChannel, deferredChannelClose,
        withDefer, call, bind, pure, Go.bind, Go.pure, hconn, hopen, hx, hd, httl]

/-- C5, amended, at ttl = 0 for the spec `(q, rk, ex)` on a broker that accepts every
call: the ttl-required error is returned. -/
theorem delay_nonpositive_ttl_witness :
    ∃ mq1, (SendDelayMsg sampleMq [104, 105] 0 calmWorld []).1 =
      Outcome.ret (mq1, some ttlRequired) :=
  (delay_nonpositive_ttl calmWorld [] sampleMq [104, 105] 0 (by decide)).2.2.2 rfl rfl

/-! ## Dead-letter targets -/

/-- C7 at a simple-queue spec: for the spec with queue `q` and empty exchange name and
routing key, `SendMsg` publishes under `("", "q")`, but the delay queue declared by
`SendDelayMsg` with ttl = 5 dead-letters to `("", "")`. -/
theorem delay_dead_letter_simple_queue :
    (queueDeclares (emitted [] (SendDelayMsg simpleMq [104, 105] 5 calmWorld []))).map
        (fun d => deadLetterTarget d.2.2) =
      [(some (FieldVal.str ""), some (FieldVal.str ""))] ∧
    sendAddress simpleSpec = ("", "q") ∧
    (publishes (emitted [] (SendMsg (fun b : Bytes => Except.ok b) simpleMq [104, 105]
        calmWorld []))).map (fun p => (p.1, p.2.1)) = [("", "q")] := by
  decide

/-! ## The retry queue -/

/-- The calls of `SendRetryMsg`, in every world. -/
theorem SendRetryMsg_emits (P : Event → Prop) (mq : RabbitMQ) (body : Bytes) (n : Int)
    (oldRoutingKey oldExchangeName : String)
    (h1 : P Event.openChannel) (h2 : P Event.channelClose)
    (h3 : ∀ k, P (Event.exchangeDeclare mq.ExchangeName k true false false false []))
    (h4 : P (Event.queueDeclare mq.QueueName true false false false
      [("x-dead-letter-routing-key", FieldVal.str oldRoutingKey),
       ("x-dead-letter-exchange", FieldVal.str oldExchangeName),
       ("x-message-ttl", FieldVal.int64 20000)]))
    (h5 : ∀ q k x, P (Event.queueBind q k x false []))
    (h6 : ∀ x k m, P (Event.publish x k false false m)) :
    Emits P (fun _ => True) (SendRetryMsg mq body n oldRoutingKey oldExchangeName) := by
  unfold SendRetryMsg
  refine Emits.bind (Emits.MqOpenChannel h1) (fun r hr => ?_)
  obtain ⟨mq1, e1⟩ := r
  obtain ⟨hq1, hk1, hx1⟩ := hr
  dsimp only at hq1 hk1 hx1 ⊢
  refine Emits.withDefer ?_ (Emits.deferredChannelClose h2)
  refine Emits.bind (Emits.declareExchange (by rw [hx1]; exact h3)) (fun r hr => ?_)
  obtain ⟨mq2, e2⟩ := r
  obtain ⟨hq2, hk2, hx2⟩ := hr
  dsimp only at hq2 hk2 hx2 ⊢
  by_cases ho : oldExchangeName = ""
  · simp only [ho, ne_eq, not_true_eq_false, if_false]
    refine Emits.bind (Emits.onChannel ?_) (fun _ _ => ?_)
    · rw [hq2, hq1]
      simpa [Table.set, ho] using h4
    · split <;>
        repeat (first
          | exact Emits.done _
          | refine Emits.bind (Emits.onChannel (h5 _ _ _)) (fun _ _ => ?_)
          | refine Emits.bind (Emits.onChannel (h6 _ _ _)) (fun _ _ => ?_)
          | refine Emits.bind (Emits.done _) (fun _ _ => ?_))
  · simp only [ho, ne_eq, not_false_eq_true, if_true]
    refine Emits.bind (Emits.onChannel ?_) (fun _ _ => ?_)
    · rw [hq2, hq1]
      simpa [Table.set] using h4
    · split <;>
        repeat (first
          | exact Emits.done _
          | refine Emits.bind (Emits.onChannel (h5 _ _ _)) (fun _ _ => ?_)
          | refine Emits.bind (Emits.onChannel (h6 _ _ _)) (fun _ _ => ?_)
          | refine Emits.bind (Emits.done _) (fun _ _ => ?_))

/-- The calls of `retryMsg`, in every world: the only queue declaration it can issue is
fixed by the base spec. -/
theorem retryMsg_emits (P : Event → Prop) (msg : Bytes) (n : Int) (q : QueueExchange)
    (h0 : P (Event.dial q.Dns)) (hc : P Event.connClose)
    (h1 : P Event.openChannel) (h2 : P Event.channelClose)
    (h3 : ∀ k, P (Event.exchangeDeclare q.ExName k true false false false []))
    (h4 : P (Event.queueDeclare (if q.QuName ≠ "" then q.QuName ++ "_retry_3" else "")
      true false false false
      [("x-dead-letter-routing-key",
          FieldVal.str (if q.RtKey = "" ∨ q.ExName = "" then q.QuName else q.RtKey)),
       ("x-dead-letter-exchange", FieldVal.str q.ExName),
       ("x-message-ttl", FieldVal.int64 20000)]))
    (h5 : ∀ q k x, P (Event.queueBind q k x false []))
    (h6 : ∀ x k m, P (Event.publish x k false false m)) :
    Emits P (fun _ => True) (retryMsg msg n q) := by
  unfold retryMsg
  have hD : (NewMq (retrySpec q).2.2).dns = q.Dns := by
    simp only [retrySpec, NewMq]; split <;> split <;> rfl
  have hX : (NewMq (retrySpec q).2.2).ExchangeName = q.ExName := by
    simp only [retrySpec, NewMq]; split <;> split <;> rfl
  have hQ : (NewMq (retrySpec q).2.2).QueueName =
      (if q.QuName ≠ "" then q.QuName ++ "_retry_3" else "") := by
    simp only [retrySpec, NewMq]
    by_cases hq : q.QuName = "" <;> simp [hq] <;> split <;> rfl
  dsimp only
  refine Emits.bind (Emits.MqConnect (by rw [hD]; exact h0)) (fun r hr => ?_)
  obtain ⟨mq1, e1⟩ := r
  obtain ⟨hq1, hk1, hx1⟩ := hr
  dsimp only at hq1 hk1 hx1 ⊢
  refine Emits.withDefer ?_ (Emits.bind (Emits.CloseMqConnect hc) (fun _ _ => Emits.done _))
  refine Emits.bind (SendRetryMsg_emits P mq1 msg n _ _ h1 h2 ?_ ?_ h5 h6)
    (fun _ _ => Emits.done _)
  · rw [hx1, hX]; exact h3
  · rw [hq1, hQ]
    simpa [retrySpec] using h4

/-- The queue declaration of the retry path when its connection and channel
open. -/
theorem retryMsg_queueDeclares (w : World) (tr0 : List Event) (msg : Bytes) (n : Int)
    (q : QueueExchange)
    (hdial : ∀ tr, w tr (Event.dial q.Dns) = none)
    (hopen : ∀ tr, w tr Event.openChannel = none) :
    queueDeclares (emitted tr0 (retryMsg msg n q w tr0)) =
      [(if q.QuName ≠ "" then q.QuName ++ "_retry_3" else "", true,
        [("x-dead-letter-routing-key",
            FieldVal.str (if q.RtKey = "" ∨ q.ExName = "" then q.QuName else q.RtKey)),
         ("x-dead-letter-exchange", FieldVal.str q.ExName),
         ("x-message-ttl", FieldVal.int64 20000)])] := by
  have hr : ∀ s : String, s ++ "_retry_3" ≠ "" := fun s => append_ne_empty s _ (by decide)
  by_cases hx : q.ExName = "" <;> by_cases hk : q.RtKey = "" <;>
    by_cases hq : q.QuName = "" <;>
    simp [retryMsg, retrySpec, SendRetryMsg, MqConnect, MqOpenChannel,
      CloseMqConnect, NewMq, declareExchange, onChannel, deferredChannelClose, withDefer,
      call, bind, pure, Go.bind, Go.pure, hdial, hopen, hx, hk, hq, hr,
      emitted, queueDeclares, Event.asQueueDeclare, Table.set]

/-- C6 at a spec with an exchange but no routing key: for the spec with queue `q`,
exchange `ex` and empty routing key, `SendMsg` publishes under `("", "q")`, but the
retry queue declared by the retry path dead-letters to `("ex", "q")`. -/
theorem retry_dead_letter_keyless_spec :
    (queueDeclares (emitted [] (retryMsg [104, 105] 0 keylessSpec calmWorld []))).map
        (fun d => deadLetterTarget d.2.2) =
      [(some (FieldVal.str "ex"), some (FieldVal.str "q"))] ∧
    sendAddress keylessSpec = ("", "q") ∧
    (publishes (emitted [] (SendMsg (fun b : Bytes => Except.ok b) (connected keylessSpec)
        [104, 105] calmWorld []))).map (fun p => (p.1, p.2.1)) = [("", "q")] ∧
    queueBinds (emitted [] (listenReceiver (connected keylessSpec) [] calmWorld [])) = [] := by
  decide

/-- C8, as stated, fails: for a base spec with an empty queue name the retry
path declares the queue under the empty name, not under `"_retry_3"`. -/
theorem retry_queue_nameless_spec :
    (queueDeclares (emitted [] (retryMsg [104, 105] 0 namelessSpec calmWorld []))).map
        (fun d => d.1) = [""] ∧
    namelessSpec.QuName ++ "_retry_3" ≠ "" := by
  decide

/-- C8, amended: for every base spec with a non-empty queue name and every
current retry count `n`, every queue the retry path (`retryMsg`, then `SendRetryMsg`)
declares is named `QuName ++ "_retry_3"`, is durable and has `x-message-ttl = 20000`, in
every world; when the connection and the channel of the retry path open,
exactly one such queue is declared. -/
theorem retry_queue_name_and_ttl (w : World) (tr0 : List Event) (msg : Bytes) (n : Int)
    (q : QueueExchange) (hq : q.QuName ≠ "") :
    (∀ d ∈ queueDeclares (emitted tr0 (retryMsg msg n q w tr0)),
      d.1 = q.QuName ++ "_retry_3" ∧ d.2.1 = true ∧
      Table.get d.2.2 "x-message-ttl" = some (FieldVal.int64 20000)) ∧
    ((∀ tr, w tr (Event.dial q.Dns) = none) → (∀ tr, w tr Event.openChannel = none) →
      (queueDeclares (emitted tr0 (retryMsg msg n q w tr0))).length = 1) := by
  refine ⟨?_, ?_⟩
  · intro d hd
    have hE := retryMsg_emits
      (fun e => ∀ d, e.asQueueDeclare = some d →
        d.1 = q.QuName ++ "_retry_3" ∧ d.2.1 = true ∧
        Table.get d.2.2 "x-message-ttl" = some (FieldVal.int64 20000)) msg n q
      (by intro d h; simp [Event.asQueueDeclare] at h)
      (by intro d h; simp [Event.asQueueDeclare] at h)
      (by intro d h; simp [Event.asQueueDeclare] at h)
      (by intro d h; simp [Event.asQueueDeclare] at h)
      (by intro k d h; simp [Event.asQueueDeclare] at h)
      (by
        intro d h
        simp only [Event.asQueueDeclare, Option.some.injEq] at h
        subst h
        simp [hq, Table.get])
      (by intro q k x d h; simp [Event.asQueueDeclare] at h)
      (by intro x k m d h; simp [Event.asQueueDeclare] at h)
    obtain ⟨e, he, hfe⟩ := (hE.filterMap Event.asQueueDeclare w tr0).2 d hd
    exact he d hfe
  · intro hdial hopen
    rw [retryMsg_queueDeclares w tr0 msg n q hdial hopen]
    rfl

/-- C8, amended, for the spec `(q, rk, ex)` at retry count 2 on a broker that accepts
every call. -/
theorem retry_queue_name_and_ttl_witness :
    (queueDeclares (emitted [] (retryMsg [104, 105] 2 sampleSpec calmWorld []))).length = 1 :=
  (retry_queue_name_and_ttl calmWorld [] [104, 105] 2 sampleSpec (by decide)).2
    (fun _ => rfl) (fun _ => rfl)

/-! ## Addressing of producer and consumer -/

theorem consumes_eq_nil (l : List Event) (h : ∀ e ∈ l, e.asConsume = none) :
    consumes l = [] := by
  induction l with
  | nil => rfl
  | cons a t ih =>
    have ha : a.asConsume = none := h a (List.mem_cons_self a t)
    have ht : consumes t = [] := ih (fun e he => h e (List.mem_cons_of_mem a he))
    simp only [consumes] at ht ⊢
    simp [List.filterMap_cons, ha, ht]

/-- The loop body only makes calls other than `Consume`. -/
theorem onDelivery_emits (P : Event → Prop) (hP : ∀ e, e.asConsume = none → P e)
    (mq : RabbitMQ) (msg : Delivery) :
    Emits P (fun _ => True) (onDelivery mq msg) := by
  unfold onDelivery
  refine Emits.bind (Emits.call (hP _ rfl)) (fun err _ => ?_)
  cases err with
  | none => exact Emits.bind (Emits.call (hP _ rfl)) (fun _ _ => Emits.done _)
  | some e =>
    dsimp only
    split
    · refine Emits.bind (retryMsg_emits P _ _ _ (hP _ rfl) (hP _ rfl) (hP _ rfl) (hP _ rfl)
        (fun _ => hP _ rfl) (hP _ rfl) (fun _ _ _ => hP _ rfl) (fun _ _ _ => hP _ rfl))
        (fun _ _ => ?_)
      exact Emits.bind (Emits.call (hP _ rfl)) (fun _ _ => Emits.done _)
    · repeat (first
        | exact Emits.done _
        | refine Emits.bind (Emits.call (hP _ rfl)) (fun _ _ => ?_)
        | refine Emits.bind (Emits.done _) (fun _ _ => ?_))

/-- The loop only makes calls other than `Consume`, and only extends the history. -/
theorem consumeAll_emits (P : Event → Prop) (hP : ∀ e, e.asConsume = none → P e)
    (mq : RabbitMQ) (l : List Delivery) :
    Emits P (fun _ => True) (consumeAll mq l) := by
  induction l with
  | nil => exact Emits.done _
  | cons msg rest ih =>
    unfold consumeAll
    exact Emits.bind (onDelivery_emits P hP mq msg) (fun _ _ => ih)

/-- The calls of `listenReceiver` on an open channel: the topology of the spec, the
prefetch limit and the subscription to the queue of the spec come first, and
no other subscription follows, whatever the deliveries. -/
theorem listenReceiver_setup (w : World) (tr0 : List Event) (mq : RabbitMQ)
    (msgList : List Delivery)
    (hconn : mq.connection = true)
    (hopen : ∀ tr, w tr Event.openChannel = none) :
    ∃ rest, emitted tr0 (listenReceiver mq msgList w tr0) =
      Event.openChannel :: declareTopology mq ++
        [Event.qos 1 0 false, Event.consume mq.QueueName "" false false false false []] ++
        rest ∧ consumes rest = [] := by
  by_cases hx : mq.ExchangeName = "" <;> by_cases hk : mq.RoutingKey = ""
  all_goals
    simp [listenReceiver, MqOpenChannel, declareExchange, onChannel, deferredChannelClose,
      withDefer, call, bind, pure, Go.bind, Go.pure, hconn, hopen, hx, hk, emitted,
      declareTopology]
    generalize w _ (Event.consume _ _ _ _ _ _ _) = c
    cases c with
    | some e => simp [blockForever, consumes]
    | none =>
      simp only
      generalize hH : (tr0 ++ _ : List Event) = H
      generalize hR : consumeAll _ msgList w H = R
      have hE : ∃ evs, R.2 = H ++ evs ∧ ∀ e ∈ evs, e.asConsume = none := by
        rw [← hR]
        obtain ⟨evs, h, h2, -⟩ :=
          consumeAll_emits (fun e => e.asConsume = none) (fun _ h => h) _ msgList w H
        exact ⟨evs, h, h2⟩
      obtain ⟨evs, hevs, hno⟩ := hE
      rcases R with ⟨o, t⟩
      simp only at hevs
      subst hevs
      subst hH
      cases o <;> simp <;>
        exact consumes_eq_nil _ (by
          intro e he
          first
          | exact hno e he
          | rcases List.mem_append.mp he with h | h
            · exact hno e h
            · rw [List.mem_singleton.mp h]; rfl)

/-- The calls of `SendMsg` on an open channel with a payload that marshals: the
topology of the spec, then one publish under the address of the spec. -/
theorem SendMsg_trace {β : Type} (w : World) (tr0 : List Event) (mq : RabbitMQ)
    (marshal : β → Except String Bytes) (body : β) (bs : Bytes)
    (hconn : mq.connection = true)
    (hopen : ∀ tr, w tr Event.openChannel = none)
    (hm : marshal body = Except.ok bs) :
    emitted tr0 (SendMsg marshal mq body w tr0) =
      Event.openChannel :: declareTopology mq ++
        [Event.publish
          (if mq.ExchangeName ≠ "" ∧ mq.RoutingKey ≠ "" then mq.ExchangeName else "")
          (if mq.ExchangeName ≠ "" ∧ mq.RoutingKey ≠ "" then mq.RoutingKey else mq.QueueName)
          false false
          { ContentType := "application/json", Body := bs, DeliveryMode := 2, Headers := [] },
         Event.channelClose] := by
  by_cases hx : mq.ExchangeName = "" <;> by_cases hk : mq.RoutingKey = "" <;>
    simp [SendMsg, MqOpenChannel, declareExchange, onChannel, deferredChannelClose,
      withDefer, call, bind, pure, Go.bind, Go.pure, hconn, hopen, hm, hx, hk, emitted,
      declareTopology]

/-- C9: addressing round trip.  For a spec whose exchange name or routing key
is empty, `SendMsg` declares the queue `QueueName`, declares no binding and publishes
to the default exchange `""` with routing key `QueueName`; for a spec with both
non-empty it declares the exchange, then the queue, then the binding
`(QueueName, RoutingKey, ExchangeName)` and publishes to `(ExchangeName, RoutingKey)`.
`listenReceiver` for the same spec declares the queue `QueueName` and subscribes to it and
to nothing else, and in both cases the address published to routes to that
queue.  Connection and channel are taken to be open and the payload to
marshal; the broker may answer every other call as it likes. -/
theorem addressing_round_trip {β : Type} (w : World) (trS trC : List Event) (mq : RabbitMQ)
    (marshal : β → Except String Bytes) (body : β) (bs : Bytes) (msgList : List Delivery)
    (hconn : mq.connection = true)
    (hopen : ∀ tr, w tr Event.openChannel = none)
    (hm : marshal body = Except.ok bs) :
    (mq.ExchangeName = "" ∨ mq.RoutingKey = "" →
      queueDeclares (emitted trS (SendMsg marshal mq body w trS)) =
        [(mq.QueueName, true, [])] ∧
      queueBinds (emitted trS (SendMsg marshal mq body w trS)) = [] ∧
      publishes (emitted trS (SendMsg marshal mq body w trS)) =
        [("", mq.QueueName,
          { ContentType := "application/json", Body := bs, DeliveryMode := 2,
            Headers := [] })]) ∧
    (mq.ExchangeName ≠ "" ∧ mq.RoutingKey ≠ "" →
      emitted trS (SendMsg marshal mq body w trS) =
        [Event.openChannel,
         Event.exchangeDeclare mq.ExchangeName
           (if mq.ExchangeType = "" then "direct" else mq.ExchangeType)
           true false false false [],
         Event.queueDeclare mq.QueueName true false false false [],
         Event.queueBind mq.QueueName mq.RoutingKey mq.ExchangeName false [],
         Event.publish mq.ExchangeName mq.RoutingKey false false
           { ContentType := "application/json", Body := bs, DeliveryMode := 2,
             Headers := [] },
         Event.channelClose]) ∧
    (mq.QueueName, true, []) ∈
      queueDeclares (emitted trC (listenReceiver mq msgList w trC)) ∧
    consumes (emitted trC (listenReceiver mq msgList w trC)) = [mq.QueueName] ∧
    (∀ p ∈ publishes (emitted trS (SendMsg marshal mq body w trS)),
      routesTo (queueBinds (emitted trC (listenReceiver mq msgList w trC)))
        p.1 p.2.1 mq.QueueName = true) := by
  obtain ⟨rest, hC, hno⟩ := listenReceiver_setup w trC mq msgList hconn hopen
  rw [hC, SendMsg_trace w trS mq marshal body bs hconn hopen hm]
  simp only [consumes] at hno
  by_cases hx : mq.ExchangeName = "" <;> by_cases hk : mq.RoutingKey = "" <;>
    simp [declareTopology, queueDeclares, queueBinds, publishes, consumes, routesTo,
      Event.asQueueDeclare, Event.asQueueBind, Event.asPublish, Event.asConsume, hx, hk, hno]

/-- C9 for the simple-queue spec `q` on a broker that accepts every call: the
publish goes to `("", "q")` and the consumer subscribes to `q`. -/
theorem addressing_round_trip_witness :
    publishes (emitted [] (SendMsg (fun b : Bytes => Except.ok b) simpleMq [104, 105]
      calmWorld [])) =
      [("", "q", { ContentType := "application/json", Body := [104, 105], DeliveryMode := 2,
                   Headers := [] })] ∧
    consumes (emitted [] (listenReceiver simpleMq [sampleDelivery] calmWorld [])) = ["q"] :=
  have h := addressing_round_trip calmWorld [] [] simpleMq (fun b : Bytes => Except.ok b)
    [104, 105] [104, 105] [sampleDelivery] rfl (fun _ => rfl) rfl
  ⟨(h.1 (Or.inl rfl)).2.2, h.2.2.2.1⟩

/-! ## The reconnect supervisor -/

/-- C10, as stated, fails: started with 2 workers, the supervisor that has
received one quit signal and then the `reconnected` signal starts one worker,
not two. -/
theorem reconnect_respawns_one_of_two :
    workersIn (supervisorStart [2]).started = 2 ∧
    workersIn (spawnedBy Signal.tryToLinkC
      (selectCase Signal.taskQuit (supervisorStart [2]))) = 1 := by
  decide

/-- C10, amended: started with worker count `N` (`otherParams[0]`, default 1), the
supervisor spawns `N` workers at start-up (none when `N <= 0`), a quit signal
starts one reconnect attempt and no worker, and the round that handles the
`reconnected` signal starts exactly one new worker, whatever `N` and the state
are; the two numbers agree exactly when `N = 1`. -/
theorem reconnect_respawns_one (otherParams : List Int) (st : Supervisor) :
    (supervisorStart otherParams).started =
      List.replicate (receiveParams otherParams).1.toNat Spawn.Recv2 ∧
    workersIn (supervisorStart otherParams).started = (receiveParams otherParams).1.toNat ∧
    receiveParams [] = (1, 0) ∧
    (∀ n, receiveParams [n] = (n, 0)) ∧
    spawnedBy Signal.taskQuit st = [Spawn.tryToLink] ∧
    spawnedBy Signal.tryToLinkC st = [Spawn.Recv2] ∧
    workersIn (spawnedBy Signal.tryToLinkC st) = 1 ∧
    (selectCase Signal.tryToLinkC st).exitTask = st.exitTask ∧
    (workersIn (spawnedBy Signal.tryToLinkC st) =
        workersIn (supervisorStart otherParams).started ↔
      (receiveParams otherParams).1 = 1) := by
  have hstart : (supervisorStart otherParams).started =
      List.replicate (receiveParams otherParams).1.toNat Spawn.Recv2 := by
    simp only [supervisorStart, startTasks]
    exact List.ext_getElem (by simp) (by intro i h1 h2; simp)
  have hcount : workersIn (supervisorStart otherParams).started =
      (receiveParams otherParams).1.toNat := by
    rw [hstart]; simp [workersIn]
  have hone : spawnedBy Signal.tryToLinkC st = [Spawn.Recv2] := by
    simp [spawnedBy, selectCase]
  refine ⟨hstart, hcount, rfl, fun _ => rfl, by simp [spawnedBy, selectCase], hone,
    by rw [hone]; rfl, rfl, ?_⟩
  rw [hone, hcount]
  simp only [workersIn, List.count_singleton_self]
  omega

/-! ## The reconnect loop -/

theorem wrapInt64_succ (c : Int) (hlo : -9223372036854775808 ≤ c)
    (hhi : c < 9223372036854775807) : wrapInt64 (c + 1) = c + 1 := by
  unfold wrapInt64; omega

/-- The bound computed by `ReceiveMsg` is even, hence below the largest `int`: the
counter can always exceed it. -/
theorem maxTryConnNumsOf_lt (m : Int) : maxTryConnNumsOf m < 9223372036854775807 := by
  unfold maxTryConnNumsOf
  obtain ⟨z, hz⟩ : ∃ z, wrapInt64 (m * 10) = 2 * z :=
    ⟨wrapInt64 (m * 10) / 2, by unfold wrapInt64; omega⟩
  rw [hz, show 2 * z * m = 2 * (z * m) by ring]
  generalize z * m = t
  unfold wrapInt64
  omega

/-- When every dial from the current history on fails, `tryToLink` dials up to the
first attempt whose count exceeds the bound, signals `tryToLinkMaxNums` and stops. -/
theorem tryToLink_all_fail (w : World) (B : Int) (hB : B < 9223372036854775807) :
    ∀ (fuel : Nat) (mq : RabbitMQ) (c : Int) (tr : List Event),
      (∀ ext, ∃ e, w (tr ++ ext) (Event.dial mq.dns) = some e) →
      dialsUntilMax B c ≤ fuel →
      ∃ mq1 e, tryToLink B fuel mq c w tr =
        (Outcome.ret (some (Signal.tryToLinkMaxNums, mq1,
            wrapInt64 (c + 1) + dialsUntilMax B c - 1, some e)),
          tr ++ List.replicate (dialsUntilMax B c) (Event.dial mq.dns)) := by
  intro fuel
  induction fuel with
  | zero =>
    intro mq c tr _ hf
    unfold dialsUntilMax at hf
    omega
  | succ f ih =>
    intro mq c tr hfail hf
    obtain ⟨e, he⟩ := hfail []
    simp only [List.append_nil] at he
    have hlo : -9223372036854775808 ≤ wrapInt64 (c + 1) := by unfold wrapInt64; omega
    by_cases hgt : wrapInt64 (c + 1) > B
    · have hk : dialsUntilMax B c = 1 := by unfold dialsUntilMax; omega
      refine ⟨{ mq with connection := false }, e, ?_⟩
      rw [hk]
      simp [tryToLink, MqConnect, call, bind, pure, Go.bind, Go.pure, he, hgt]
    · have hw : wrapInt64 (wrapInt64 (c + 1) + 1) = wrapInt64 (c + 1) + 1 :=
        wrapInt64_succ _ hlo (by omega)
      have hk : dialsUntilMax B c = dialsUntilMax B (wrapInt64 (c + 1)) + 1 := by
        unfold dialsUntilMax
        rw [hw]
        omega
      have hk2 : (dialsUntilMax B (wrapInt64 (c + 1)) : Int) =
          B + 1 - wrapInt64 (c + 1) := by
        unfold dialsUntilMax
        rw [hw]
        omega
      obtain ⟨mq1, e1, h1⟩ := ih { mq with connection := false } (wrapInt64 (c + 1))
        (tr ++ [Event.dial mq.dns])
        (by
          intro ext
          obtain ⟨e2, he2⟩ := hfail ([Event.dial mq.dns] ++ ext)
          exact ⟨e2, by simpa using he2⟩)
        (by omega)
      refine ⟨mq1, e1, ?_⟩
      rw [hk]
      simp only at h1
      simp [tryToLink, MqConnect, call, bind, pure, Go.bind, Go.pure, he, hgt, h1, hw,
        List.replicate_succ]
      omega

/-- The closure `tryToLink` only dials, and the object it hands back has the address
it was given. -/
theorem tryToLink_emits (P : Event → Prop) (B : Int) (d : String) (hP : P (Event.dial d)) :
    ∀ (fuel : Nat) (mq : RabbitMQ) (c : Int), mq.dns = d →
      Emits P (fun r => ∀ x, r = some x → x.2.1.dns = d) (tryToLink B fuel mq c) := by
  intro fuel
  induction fuel with
  | zero =>
    intro mq c _
    exact Emits.pure (by intro x hx; cases hx)
  | succ f ih =>
    intro mq c hd
    unfold tryToLink
    have hdial : Emits P (fun r : RabbitMQ × Option String => r.1.dns = d) (MqConnect mq) :=
      Emits.bind (Emits.call (by rw [hd]; exact hP)) (fun _ _ => Emits.pure hd)
    refine Emits.bind hdial (fun r hr => ?_)
    obtain ⟨mq1, err⟩ := r
    cases err with
    | none =>
      exact Emits.pure (by intro x hx; cases hx; exact hr)
    | some e =>
      dsimp only
      split
      · exact Emits.pure (by intro x hx; cases hx; exact hr)
      · exact ih mq1 _ hr

/-- A reconnect cycle keeps the address of the object and the bound. -/
theorem reconnectCycle_keeps (w : World) (fuel : Nat) (s s1 : Session) (tr tr1 : List Event)
    (h : reconnectCycle fuel s w tr = (Outcome.ret (some s1), tr1)) :
    s1.mq.dns = s.mq.dns ∧ s1.maxTryConnNums = s.maxTryConnNums := by
  obtain ⟨_, _, _, hq⟩ := tryToLink_emits (fun _ => True) s.maxTryConnNums s.mq.dns trivial
    fuel s.mq s.maxTryNums rfl w tr
  rcases hr : tryToLink s.maxTryConnNums fuel s.mq s.maxTryNums w tr with ⟨o, t⟩
  rw [hr] at hq
  cases o with
  | ret a =>
    cases a with
    | none => simp [reconnectCycle, bind, pure, Go.bind, Go.pure, hr] at h
    | some x =>
      obtain ⟨sig, mq1, n, err⟩ := x
      have hd := hq _ rfl _ rfl
      simp only [reconnectCycle, bind, pure, Go.bind, Go.pure, hr, Prod.mk.injEq,
        Outcome.ret.injEq, Option.some.injEq] at h
      obtain ⟨h1, _⟩ := h
      subst h1
      exact ⟨hd, rfl⟩
  | panic m => simp [reconnectCycle, bind, pure, Go.bind, Go.pure, hr] at h
  | hang => simp [reconnectCycle, bind, pure, Go.bind, Go.pure, hr] at h

/-- A run of the `select` loop that is waiting after `j` quit signals keeps the
address and the bound, and goes on from where it waits when more signals
come. -/
theorem superviseLoop_waiting (w : World) (fuel : Nat) :
    ∀ (j : Nat) (s0 : Session) (tr0 : List Event) (s : Session) (tr : List Event),
      superviseLoop fuel j s0 w tr0 = (Outcome.ret (Receive.waiting s), tr) →
      s.mq.dns = s0.mq.dns ∧ s.maxTryConnNums = s0.maxTryConnNums ∧
      ∀ r, superviseLoop fuel (j + r) s0 w tr0 = superviseLoop fuel r s w tr := by
  intro j
  induction j with
  | zero =>
    intro s0 tr0 s tr h
    simp only [superviseLoop, Go.pure, Prod.mk.injEq, Outcome.ret.injEq,
      Receive.waiting.injEq] at h
    obtain ⟨h1, h2⟩ := h
    subst h1
    subst h2
    exact ⟨rfl, rfl, fun r => by rw [Nat.zero_add]⟩
  | succ j ih =>
    intro s0 tr0 s tr h
    rcases hc : reconnectCycle fuel s0 w tr0 with ⟨o, t⟩
    cases o with
    | ret a =>
      cases a with
      | none => simp [superviseLoop, bind, pure, Go.bind, Go.pure, hc] at h
      | some s1 =>
        by_cases hexit : s1.sup.exitTask = true
        · have hstep : ∀ q, superviseLoop fuel (q + 1) s0 w tr0 =
              superviseLoop fuel q s1 w t := by
            intro q
            rw [superviseLoop]
            simp [bind, Go.bind, hc, hexit]
          rw [hstep j] at h
          obtain ⟨h1, h2, h3⟩ := ih s1 t s tr h
          obtain ⟨k1, k2⟩ := reconnectCycle_keeps w fuel s0 s1 tr0 t hc
          refine ⟨h1.trans k1, h2.trans k2, fun r => ?_⟩
          rw [show j + 1 + r = (j + r) + 1 by omega, hstep (j + r)]
          exact h3 r
        · simp [superviseLoop, bind, pure, Go.bind, Go.pure, hc, hexit] at h
    | panic m => simp [superviseLoop, bind, pure, Go.bind, Go.pure, hc] at h
    | hang => simp [superviseLoop, bind, pure, Go.bind, Go.pure, hc] at h

/-- A run of `ReceiveMsg` that is waiting in the `select` has made its first connect
and entered the loop with the counter at 0 and the bound of its parameters. -/
theorem ReceiveMsg_waiting (w : World) (fuel j : Nat) (q : QueueExchange)
    (otherParams : List Int) (s : Session) (tr : List Event)
    (h : ReceiveMsg fuel q otherParams j w [] = (Outcome.ret (Receive.waiting s), tr)) :
    w [] (Event.dial q.Dns) = none ∧
    ∀ r, ReceiveMsg fuel q otherParams r w [] =
      superviseLoop fuel r
        { sup := supervisorStart otherParams, mq := { NewMq q with connection := true },
          maxTryNums := 0,
          maxTryConnNums := maxTryConnNumsOf (receiveParams otherParams).2 } w
        [Event.dial q.Dns] := by
  cases hd : w [] (Event.dial q.Dns) with
  | some e =>
    simp [ReceiveMsg, MqConnect, call, bind, pure, Go.bind, Go.pure, NewMq, hd] at h
  | none =>
    refine ⟨rfl, fun r => ?_⟩
    simp [ReceiveMsg, MqConnect, call, bind, pure, Go.bind, Go.pure, NewMq, hd]

/-- C11: in `ReceiveMsg` with attempt bound `B = maxTryConnNums`, take a run that has come
through `j` reconnect cycles and waits in the `select` in state `s` with history `tr`.  If
a worker then quits and every dial from `tr` on fails, the reconnect loop makes
finitely many dials: `tryToLink` stops at the first failed dial whose attempt
counter exceeds `B`, signals `tryToLinkMaxNums` and dials no more, and the blocking call
`ReceiveMsg` returns the max-attempts error.  Any fuel of at least the number of
dials gives the result; cycles are taken one at a time. -/
theorem max_attempts_exceeded (w : World) (q : QueueExchange) (otherParams : List Int)
    (fuel j : Nat) (s : Session) (tr : List Event)
    (hrun : ReceiveMsg fuel q otherParams j w [] = (Outcome.ret (Receive.waiting s), tr))
    (hfail : ∀ ext, ∃ e, w (tr ++ ext) (Event.dial q.Dns) = some e)
    (hfuel : dialsUntilMax s.maxTryConnNums s.maxTryNums ≤ fuel) :
    s.maxTryConnNums = maxTryConnNumsOf (receiveParams otherParams).2 ∧
    (∃ mq1 e, tryToLink s.maxTryConnNums fuel s.mq s.maxTryNums w tr =
      (Outcome.ret (some (Signal.tryToLinkMaxNums, mq1,
          wrapInt64 (s.maxTryNums + 1) + dialsUntilMax s.maxTryConnNums s.maxTryNums - 1,
          some e)),
        tr ++ List.replicate (dialsUntilMax s.maxTryConnNums s.maxTryNums)
          (Event.dial q.Dns))) ∧
    ReceiveMsg fuel q otherParams (j + 1) w [] =
      (Outcome.ret (Receive.returned (some maxAttemptsError)),
        tr ++ List.replicate (dialsUntilMax s.maxTryConnNums s.maxTryNums)
          (Event.dial q.Dns)) ∧
    s.maxTryConnNums <
      wrapInt64 (s.maxTryNums + 1) + dialsUntilMax s.maxTryConnNums s.maxTryNums - 1 ∧
    (∀ i : Nat, 1 ≤ i → i < dialsUntilMax s.maxTryConnNums s.maxTryNums →
      wrapInt64 (s.maxTryNums + 1) + i - 1 ≤ s.maxTryConnNums) := by
  obtain ⟨_, hR⟩ := ReceiveMsg_waiting w fuel j q otherParams s tr hrun
  rw [hR j] at hrun
  obtain ⟨hdns, hbound, hnext⟩ := superviseLoop_waiting w fuel j _ _ s tr hrun
  simp only [NewMq] at hdns
  simp only at hbound
  have hB : s.maxTryConnNums < 9223372036854775807 := by
    rw [hbound]; exact maxTryConnNumsOf_lt _
  obtain ⟨mq1, e, h1⟩ := tryToLink_all_fail w s.maxTryConnNums hB fuel s.mq s.maxTryNums tr
    (by rw [hdns]; exact hfail) hfuel
  rw [hdns] at h1
  refine ⟨hbound, ⟨mq1, e, h1⟩, ?_, ?_, ?_⟩
  · rw [hR (j + 1), hnext 1, superviseLoop]
    simp [reconnectCycle, bind, pure, Go.bind, Go.pure, h1, selectCase, maxAttemptsError]
  · unfold dialsUntilMax; omega
  · intro i h1i hi
    unfold dialsUntilMax at hi
    omega

/-- C11 for a first cycle with bound 10 (`otherParams = [1, 1]`): after the first
connect no dial succeeds, the cycle makes eleven dials and `ReceiveMsg` returns the
max-attempts error. -/
theorem max_attempts_exceeded_witness :
    ReceiveMsg 11 sampleSpec [1, 1] 1 onlyFirstDial [] =
      (Outcome.ret (Receive.returned (some maxAttemptsError)),
        List.replicate 12 (Event.dial "amqp://broker")) :=
  (max_attempts_exceeded onlyFirstDial sampleSpec [1, 1] 11 0
    { sup := supervisorStart [1, 1], mq := connected sampleSpec, maxTryNums := 0,
      maxTryConnNums := 10 }
    [Event.dial "amqp://broker"] (by decide)
    (fun _ => ⟨"dial failed", rfl⟩) (by decide)).2.2.1

/-- When `k` dials fail with the counter staying within the bound and the next
dial succeeds, `tryToLink` signals `tryToLinkC` after `k + 1` dials. -/
theorem tryToLink_recovers (w : World) (B : Int) :
    ∀ (k fuel : Nat) (mq : RabbitMQ) (c : Int) (tr : List Event),
      -9223372036854775808 ≤ c → c + k < 9223372036854775807 → (k = 0 ∨ c + k ≤ B) →
      k + 1 ≤ fuel →
      (∀ j, j < k → ∃ e, w (tr ++ List.replicate j (Event.dial mq.dns))
        (Event.dial mq.dns) = some e) →
      w (tr ++ List.replicate k (Event.dial mq.dns)) (Event.dial mq.dns) = none →
      tryToLink B fuel mq c w tr =
        (Outcome.ret (some (Signal.tryToLinkC, { mq with connection := true }, c + k + 1,
          none)), tr ++ List.replicate (k + 1) (Event.dial mq.dns)) := by
  intro k
  induction k with
  | zero =>
    intro fuel mq c tr hlo hhi _ hf _ hs
    obtain ⟨f, rfl⟩ : ∃ f, fuel = f + 1 := ⟨fuel - 1, by omega⟩
    have hw := wrapInt64_succ c hlo (by simpa using hhi)
    simp only [List.replicate_zero, List.append_nil] at hs
    simp [tryToLink, MqConnect, call, bind, pure, Go.bind, Go.pure, hs, hw]
  | succ k ih =>
    intro fuel mq c tr hlo hhi hk hf hfails hs
    obtain ⟨f, rfl⟩ : ∃ f, fuel = f + 1 := ⟨fuel - 1, by omega⟩
    have hw := wrapInt64_succ c hlo (by push_cast at hhi; omega)
    obtain ⟨e, he⟩ := hfails 0 (by omega)
    simp only [List.replicate_zero, List.append_nil] at he
    have hle : ¬ c + 1 > B := by
      rcases hk with h | h
      · omega
      · push_cast at h; omega
    have hrec := ih f { mq with connection := false } (c + 1) (tr ++ [Event.dial mq.dns])
      (by omega) (by push_cast at hhi; omega)
      (by rcases hk with h | h
          · omega
          · push_cast at h; right; omega)
      (by omega)
      (by
        intro j hj
        obtain ⟨e1, he1⟩ := hfails (j + 1) (by omega)
        refine ⟨e1, ?_⟩
        simpa [List.replicate_succ] using he1)
      (by simpa [List.replicate_succ] using hs)
    simp only at hrec
    simp [tryToLink, MqConnect, call, bind, pure, Go.bind, Go.pure, he, hw, hle, hrec,
      List.replicate_succ]
    omega

/-- A cycle of `k` failed dials within the bound followed by a successful dial:
the `select` loop respawns one worker and goes on with the rest of the
schedule, the counter keeping its value. -/
theorem superviseLoop_recovers (w : World) (tr0 : List Event) (s : Session)
    (fuel quits k : Nat)
    (hexit : s.sup.exitTask = true)
    (hlo : -9223372036854775808 ≤ s.maxTryNums)
    (hhi : s.maxTryNums + k < 9223372036854775807)
    (hk : k = 0 ∨ s.maxTryNums + k ≤ s.maxTryConnNums)
    (hfuel : k + 1 ≤ fuel)
    (hfails : ∀ j, j < k → ∃ e, w (tr0 ++ List.replicate j (Event.dial s.mq.dns))
      (Event.dial s.mq.dns) = some e)
    (hsucc : w (tr0 ++ List.replicate k (Event.dial s.mq.dns)) (Event.dial s.mq.dns) = none) :
    superviseLoop fuel (quits + 1) s w tr0 =
      superviseLoop fuel quits
        { sup := { exitTask := true, err := none,
                   started := s.sup.started ++ [Spawn.tryToLink, Spawn.Recv2] },
          mq := { s.mq with connection := true },
          maxTryNums := s.maxTryNums + k + 1,
          maxTryConnNums := s.maxTryConnNums } w
        (tr0 ++ List.replicate (k + 1) (Event.dial s.mq.dns)) := by
  have h1 := tryToLink_recovers w s.maxTryConnNums k fuel s.mq s.maxTryNums tr0 hlo hhi hk
    hfuel hfails hsucc
  rw [superviseLoop]
  simp [reconnectCycle, bind, pure, Go.bind, Go.pure, h1, selectCase, hexit]

/-- A failed dial that takes the counter above the bound ends `tryToLink` at once,
whatever the next dial would have answered. -/
theorem tryToLink_first_failure (w : World) (B : Int) (fuel : Nat) (mq : RabbitMQ) (c : Int)
    (tr : List Event) (e : String)
    (he : w tr (Event.dial mq.dns) = some e)
    (hgt : wrapInt64 (c + 1) > B) :
    tryToLink B (fuel + 1) mq c w tr =
      (Outcome.ret (some (Signal.tryToLinkMaxNums, { mq with connection := false },
        wrapInt64 (c + 1), some e)), tr ++ [Event.dial mq.dns]) := by
  rw [tryToLink]
  simp [MqConnect, call, bind, pure, Go.bind, Go.pure, he, hgt]

/-- C12, as stated, fails: with bound 10 (`otherParams = [1, 1]`), a first cycle of nine
failed dials and a success recovers and leaves the counter at 10; in the
second cycle one dial fails, the counter 11 exceeds the bound, and `ReceiveMsg`
returns the max-attempts error, although one failure is fewer than 10 and
the next dial would have succeeded. -/
theorem second_cycle_gives_up :
    maxTryConnNumsOf (receiveParams [1, 1]).2 = 10 ∧
    ReceiveMsg 20 sampleSpec [1, 1] 1 flakyDial [] =
      (Outcome.ret (Receive.waiting
        { sup := { exitTask := true, err := none,
                   started := [Spawn.Recv2, Spawn.tryToLink, Spawn.Recv2] },
          mq := connected sampleSpec, maxTryNums := 10, maxTryConnNums := 10 }),
        List.replicate 11 (Event.dial "amqp://broker")) ∧
    ReceiveMsg 20 sampleSpec [1, 1] 2 flakyDial [] =
      (Outcome.ret (Receive.returned (some maxAttemptsError)),
        List.replicate 12 (Event.dial "amqp://broker")) ∧
    flakyDial (List.replicate 12 (Event.dial "amqp://broker")) (Event.dial "amqp://broker") =
      none := by
  have hB : maxTryConnNumsOf (receiveParams [1, 1]).2 = 10 := by decide
  have hstart : ∀ q, ReceiveMsg 20 sampleSpec [1, 1] q flakyDial [] =
      superviseLoop 20 q
        { sup := { exitTask := true, err := none, started := [Spawn.Recv2] },
          mq := connected sampleSpec, maxTryNums := 0, maxTryConnNums := 10 }
        flakyDial [Event.dial "amqp://broker"] := by
    intro q
    have h0 : flakyDial [] (Event.dial "amqp://broker") = none := rfl
    have hs : supervisorStart [1, 1] =
        { exitTask := true, err := none, started := [Spawn.Recv2] } := rfl
    simp [ReceiveMsg, MqConnect, call, bind, pure, Go.bind, Go.pure, NewMq, sampleSpec, h0,
      hB, hs, connected]
  have hcycle : ∀ q, superviseLoop 20 (q + 1)
        { sup := { exitTask := true, err := none, started := [Spawn.Recv2] },
          mq := connected sampleSpec, maxTryNums := 0, maxTryConnNums := 10 }
        flakyDial [Event.dial "amqp://broker"] =
      superviseLoop 20 q
        { sup := { exitTask := true, err := none,
                   started := [Spawn.Recv2, Spawn.tryToLink, Spawn.Recv2] },
          mq := connected sampleSpec, maxTryNums := 10, maxTryConnNums := 10 }
        flakyDial (List.replicate 11 (Event.dial "amqp://broker")) := by
    intro q
    have h := superviseLoop_recovers flakyDial [Event.dial "amqp://broker"]
      { sup := { exitTask := true, err := none, started := [Spawn.Recv2] },
        mq := connected sampleSpec, maxTryNums := 0, maxTryConnNums := 10 }
      20 q 9 rfl (by decide) (by decide) (by decide) (by decide)
      (by
        intro j hj
        refine ⟨"dial failed", ?_⟩
        interval_cases j <;> rfl)
      rfl
    rw [h]
    rfl
  refine ⟨hB, ?_, ?_, rfl⟩
  · rw [hstart 1, hcycle 0]
    rfl
  · rw [hstart 2, hcycle 1]
    have h := tryToLink_first_failure flakyDial 10 19 (connected sampleSpec) 10
      (List.replicate 11 (Event.dial "amqp://broker")) "dial failed" rfl (by decide)
    have hw : wrapInt64 (10 + 1) = 11 := by decide
    rw [hw] at h
    rw [superviseLoop]
    simp only [reconnectCycle, bind, pure, Go.bind, Go.pure, h, selectCase]
    rfl

/-- C12, amended: in `ReceiveMsg` with attempt bound `B = maxTryConnNums`, for every reconnect
cycle of one call: if the cycle starts with the attempt counter at `c` (the
counter counts the dials of all cycles of the call and is never reset), `k`
dials fail with `c + k <= B` (or none fails) and the next dial succeeds, then
`tryToLink` signals `tryToLinkC` after `k + 1` dials, the `select` loop respawns one worker,
and `ReceiveMsg` neither returns nor sets the max-attempts error: it waits in the
`select` with `err` nil and the counter at `c + k + 1`.  In the first cycle (`c = 0`) any
number of failures below `B` is within the bound. -/
theorem recovers_within_budget (w : World) (tr0 : List Event) (s : Session)
    (fuel k : Nat)
    (hexit : s.sup.exitTask = true)
    (hlo : -9223372036854775808 ≤ s.maxTryNums)
    (hhi : s.maxTryNums + k < 9223372036854775807)
    (hk : k = 0 ∨ s.maxTryNums + k ≤ s.maxTryConnNums)
    (hfuel : k + 1 ≤ fuel)
    (hfails : ∀ j, j < k → ∃ e, w (tr0 ++ List.replicate j (Event.dial s.mq.dns))
      (Event.dial s.mq.dns) = some e)
    (hsucc : w (tr0 ++ List.replicate k (Event.dial s.mq.dns)) (Event.dial s.mq.dns) = none) :
    tryToLink s.maxTryConnNums fuel s.mq s.maxTryNums w tr0 =
      (Outcome.ret (some (Signal.tryToLinkC, { s.mq with connection := true },
          s.maxTryNums + k + 1, none)),
        tr0 ++ List.replicate (k + 1) (Event.dial s.mq.dns)) ∧
    superviseLoop fuel 1 s w tr0 =
      (Outcome.ret (Receive.waiting
        { sup := { exitTask := true, err := none,
                   started := s.sup.started ++ [Spawn.tryToLink, Spawn.Recv2] },
          mq := { s.mq with connection := true },
          maxTryNums := s.maxTryNums + k + 1,
          maxTryConnNums := s.maxTryConnNums }),
        tr0 ++ List.replicate (k + 1) (Event.dial s.mq.dns)) := by
  refine ⟨tryToLink_recovers w s.maxTryConnNums k fuel s.mq s.maxTryNums tr0 hlo hhi hk
    hfuel hfails hsucc, ?_⟩
  rw [superviseLoop_recovers w tr0 s fuel 0 k hexit hlo hhi hk hfuel hfails hsucc]
  rfl

/-- C12, amended, for a session with bound 10 and the counter at 0: two failed
dials, then a success. -/
theorem recovers_within_budget_witness :
    superviseLoop 5 1 sampleSession flakyDial eightDials =
      (Outcome.ret (Receive.waiting
        { sup := { exitTask := true, err := none,
                   started := [Spawn.Recv2, Spawn.tryToLink, Spawn.Recv2] },
          mq := sampleSession.mq, maxTryNums := 3, maxTryConnNums := 10 }),
        List.replicate 11 (Event.dial "amqp://broker")) :=
  (recovers_within_budget flakyDial eightDials sampleSession 5 2 rfl (by decide) (by decide)
    (by decide) (by decide)
    (by
      intro j hj
      refine ⟨"dial failed", ?_⟩
      interval_cases j <;> rfl)
    rfl).2

/-! ## Failures of `Send` -/

/-- C13 at a channel that fails to open: a failed connect is returned by `Send`
after the dial alone, but when the connection is made and the channel
cannot be opened, `SendMsg` goes on with the nil channel and `Send` ends in a
nil-pointer panic instead of returning the failure (no declaration and no
publish reach the broker). -/
theorem send_channel_failure_panics :
    Send (fun b : Bytes => Except.ok b) sampleSpec [104, 105] refusingDial [] =
      (Outcome.ret (some "dial failed"), [Event.dial "amqp://broker"]) ∧
    Send (fun b : Bytes => Except.ok b) sampleSpec [104, 105] refusingChannel [] =
      (Outcome.panic "invalid memory address or nil pointer dereference",
        [Event.dial "amqp://broker", Event.openChannel, Event.connClose]) ∧
    Send (fun b : Bytes => Except.ok b) simpleSpec [104, 105] refusingChannel [] =
      (Outcome.panic "invalid memory address or nil pointer dereference",
        [Event.dial "amqp://broker", Event.openChannel, Event.connClose]) := by
  decide

/-! ## The address of the retry copy -/

theorem append_ne_self (s t : String) (h : t ≠ "") : s ++ t ≠ s := by
  intro hst
  apply h
  have h1 : (s ++ t).data = s.data := by rw [hst]
  rw [String.data_append] at h1
  exact String.ext (List.append_right_eq_self.mp h1)

/-- C14: for every base spec with a non-empty queue name, the retry path
declares the queue `QuName ++ "_retry_3"` and publishes the copy to an address that
reaches it and not the original queue.  With a non-empty exchange name, the
publish goes to that exchange with the routing key the retry queue is bound
with on it, and that key differs from the routing key of the base spec; with
an empty exchange name, the publish goes to the default exchange `""` with the
retry queue name as routing key, which differs from `QuName`, and nothing is
bound.  The connection and the channel of the retry path are taken to open;
the bindings considered are those of the base topology and of the retry
path. -/
theorem retry_copy_address (w : World) (tr0 : List Event) (msg : Bytes) (n : Int)
    (q : QueueExchange) (hq : q.QuName ≠ "")
    (hdial : ∀ tr, w tr (Event.dial q.Dns) = none)
    (hopen : ∀ tr, w tr Event.openChannel = none) :
    (queueDeclares (emitted tr0 (retryMsg msg n q w tr0))).map (fun d => d.1) =
      [q.QuName ++ "_retry_3"] ∧
    (q.ExName ≠ "" →
      (publishes (emitted tr0 (retryMsg msg n q w tr0))).map (fun p => (p.1, p.2.1)) =
        [(q.ExName, (retrySpec q).2.2.RtKey)] ∧
      queueBinds (emitted tr0 (retryMsg msg n q w tr0)) =
        [(q.QuName ++ "_retry_3", (retrySpec q).2.2.RtKey, q.ExName)] ∧
      (retrySpec q).2.2.RtKey ≠ q.RtKey ∧
      routesTo (queueBinds (declareTopology (NewMq q)) ++
          queueBinds (emitted tr0 (retryMsg msg n q w tr0)))
        q.ExName (retrySpec q).2.2.RtKey (q.QuName ++ "_retry_3") = true ∧
      routesTo (queueBinds (declareTopology (NewMq q)) ++
          queueBinds (emitted tr0 (retryMsg msg n q w tr0)))
        q.ExName (retrySpec q).2.2.RtKey q.QuName = false) ∧
    (q.ExName = "" →
      (publishes (emitted tr0 (retryMsg msg n q w tr0))).map (fun p => (p.1, p.2.1)) =
        [("", q.QuName ++ "_retry_3")] ∧
      queueBinds (emitted tr0 (retryMsg msg n q w tr0)) = [] ∧
      q.QuName ++ "_retry_3" ≠ q.QuName ∧
      routesTo (queueBinds (declareTopology (NewMq q)) ++
          queueBinds (emitted tr0 (retryMsg msg n q w tr0)))
        "" (q.QuName ++ "_retry_3") (q.QuName ++ "_retry_3") = true ∧
      routesTo (queueBinds (declareTopology (NewMq q)) ++
          queueBinds (emitted tr0 (retryMsg msg n q w tr0)))
        "" (q.QuName ++ "_retry_3") q.QuName = false) := by
  have hr : ∀ s : String, s ++ "_retry_3" ≠ "" := fun s => append_ne_empty s _ (by decide)
  have hs : ∀ s : String, s ++ "_retry_3" ≠ s := fun s => append_ne_self s _ (by decide)
  have hs2 : ∀ s : String, s ≠ s ++ "_retry_3" := fun s h => hs s h.symm
  have hr2 : ∀ s : String, "" ≠ s ++ "_retry_3" := fun s h => hr s h.symm
  by_cases hx : q.ExName = "" <;> by_cases hk : q.RtKey = "" <;>
    simp [retryMsg, retrySpec, SendRetryMsg, MqConnect, MqOpenChannel,
      CloseMqConnect, NewMq, declareExchange, onChannel, deferredChannelClose, withDefer,
      call, bind, pure, Go.bind, Go.pure, hdial, hopen, hx, hk, hq, hr, hs, hs2, hr2,
      emitted, queueDeclares, queueBinds, publishes, declareTopology, routesTo,
      Event.asQueueDeclare, Event.asQueueBind, Event.asPublish, Table.set]

/-- C14 for the spec `(q, rk, ex)` on a broker that accepts every call: the copy goes
to `ex` with the key `rk_retry_3` that binds `q_retry_3`. -/
theorem retry_copy_address_witness :
    (publishes (emitted [] (retryMsg [104, 105] 0 sampleSpec calmWorld []))).map
        (fun p => (p.1, p.2.1)) = [("ex", "rk_retry_3")] ∧
    queueBinds (emitted [] (retryMsg [104, 105] 0 sampleSpec calmWorld [])) =
      [("q_retry_3", "rk_retry_3", "ex")] :=
  have h := (retry_copy_address calmWorld [] [104, 105] 0 sampleSpec (by decide)
    (fun _ => rfl) (fun _ => rfl)).2.1 (by decide)
  ⟨h.1, h.2.1⟩

end Rabbitmq
